import Mathlib

/-!
Shallow embedding of the Snowman transitive consensus engine
(`snow/engine/snowman/transitive.go`) and proofs about the claims of its
specification.

External collaborators (the `Consensus` instance, the `VM`, the validator
view, the poll set) are modelled as an environment of abstract functions
over `Nat`-indexed collaborator states, exactly as the spec treats them
(out-of-scope collaborators).  Engine-internal data structures and all
control flow are translated from the source file.  Loops that are not
structurally recursive in the source (`issueChain`, `deliver`'s work queue,
the blocked-job cascade, `getProcessingAncestor`) are expressed with an
explicit fuel parameter; running out of fuel is a distinguished result that
no theorem ever counts as normal termination.
-/

namespace SnowmanEngine

/-- Result of an `OracleBlock.Options` call: the block is not an oracle
(`ErrNotOracle`, which also stands for a block that does not implement the
oracle capability), the call failed with another error, or it returned the
ordered option blocks. -/
inductive ORes (α : Type) where
  | notOracle : ORes α
  | failed : ORes α
  | opts : List α → ORes α

/-- A VM-supplied block: id, parent id, height, timestamp, raw bytes, the
result of `Verify` (`true` = no error) and the result of `Options`.
Mirrors the `snowman.Block` / `snowman.OracleBlock` interfaces. -/
inductive Block where
  | mk : Nat → Nat → Nat → Nat → List Nat → Bool → ORes Block → Block

def Block.id : Block → Nat
  | .mk i _ _ _ _ _ _ => i

def Block.parent : Block → Nat
  | .mk _ p _ _ _ _ _ => p

def Block.height : Block → Nat
  | .mk _ _ h _ _ _ _ => h

def Block.timestamp : Block → Nat
  | .mk _ _ _ ts _ _ _ => ts

def Block.bytes : Block → List Nat
  | .mk _ _ _ _ b _ _ => b

def Block.verifyOk : Block → Bool
  | .mk _ _ _ _ _ v _ => v

def Block.options : Block → ORes Block
  | .mk _ _ _ _ _ _ o => o

/-- A blocked job (`event.Blockable`): either an `issuer` waiting to deliver
a block once its parent is issued, or a `voter` waiting to apply a chit.
The `issuer`/`voter` files are not part of the sources at hand; the job
payloads are taken from the spec's data model ("Blocked job", §3). -/
inductive BJob where
  | issuer (nodeID : Nat) (blk : Block) (push : Bool) (tag : Nat)
      (deps : List Nat) (abandoned : Bool) : BJob
  | voter (vdr : Nat) (requestID : Nat) (responseOptions : List Nat)
      (deps : List Nat) : BJob

/-- Observable interactions of the engine with its collaborators: outbound
`Sender` messages, `VM.SetPreference` / `VM.SetState` calls, `Consensus.Add`
calls, and (as a ghost observation) voter-job registrations. -/
inductive Event where
  | sendGet (nodeID rid blkID : Nat) : Event
  | sendPullQuery (vdrs : List Nat) (rid blkID height : Nat) : Event
  | sendPushQuery (vdrs : List Nat) (rid : Nat) (bytes : List Nat) (height : Nat) : Event
  | sendChitsMsg (nodeID rid preferred preferredAtHeight accepted : Nat) : Event
  | setPreference (blkID : Nat) : Event
  | setVMState (st : Nat) : Event
  | consAddCall (blkID : Nat) : Event
  | voterRegistered (vdr rid : Nat) (responseOptions : List Nat) : Event
deriving DecidableEq

/-- The mutable fields of the `Transitive` engine, plus handles (`cons`,
`pollSt`) naming the current state of the external consensus instance and
poll set, and a call counter for `VM.BuildBlock`. -/
structure EngineState where
  requestID : Nat
  blkReqs : List ((Nat × Nat) × Nat)
  blkReqSourceMetric : List ((Nat × Nat) × Nat)
  pending : List (Nat × Block)
  nonVerifieds : List (Nat × Nat)
  nonVerifiedCache : List (Nat × Block)
  acceptedFrontiers : List (Nat × Nat)
  blocked : List BJob
  pendingBuildBlocks : Nat
  errs : Option Nat
  numUselessPutBytes : Nat
  numUselessPushQueryBytes : Nat
  buildCount : Nat
  stateSyncing : Bool
  cons : Nat
  pollSt : Nat

/-- The environment: configuration parameters and the behaviour of the
external collaborators, each a pure function of a `Nat`-indexed collaborator
state.  `none` results stand for returned errors. -/
structure Env where
  consProcessing : Nat → Nat → Bool
  consPreference : Nat → Nat
  consIsPreferred : Nat → Nat → Bool
  consPreferenceAtHeight : Nat → Nat → Option Nat
  consLastAccepted : Nat → Nat × Nat
  consNumProcessing : Nat → Nat
  consAdd : Nat → Block → Option Nat
  consInitialize : Nat → Nat → Nat → Option Nat
  vmParseBlock : List Nat → Option Block
  vmGetBlock : Nat → Option Block
  vmBuildBlock : Nat → Option Block
  vmLastAccepted : Option Nat
  vmGetBlockIDAtHeight : Nat → Option Nat
  vmSetPreferenceErr : Nat → Option Nat
  vmSetStateErr : Option Nat
  valSample : Option (List Nat)
  connSample : Option Nat
  pollsLen : Nat → Nat
  pollsAdd : Nat → Nat → List Nat → Option Nat
  applyVote : Nat → Nat → Nat → Nat → Option Nat → Nat × Nat
  k : Nat
  optimalProcessing : Nat
  concurrentRepolls : Nat
  partialSync : Bool
  selfNodeID : Nat
  consHealthReport : Nat → Nat
  consHealthErr : Nat → Option Nat
  vmHealthReport : Nat
  vmHealthErr : Option Nat

/-- Metric label for blocks issued by pull gossip (`pullGossipSource`). -/
def pullGossipSource : Nat := 0

/-- Metric label for blocks issued by push gossip (`pushGossipSource`). -/
def pushGossipSource : Nat := 1

/-- Metric label for locally built blocks (`builtSource`). -/
def builtSource : Nat := 2

/-- `snow.NormalOp` engine state constant. -/
def normalOp : Nat := 2

/-- Association-list lookup (first match wins). -/
def plookup {α β : Type} [DecidableEq α] : List (α × β) → α → Option β
  | [], _ => none
  | (k, v) :: rest, key => if k = key then some v else plookup rest key

/-- Remove every binding of a key from an association list. -/
def perase {α β : Type} [DecidableEq α] : List (α × β) → α → List (α × β)
  | [], _ => []
  | (k, v) :: rest, key =>
    if k = key then perase rest key else (k, v) :: perase rest key

/-- Replace or add a binding in an association list. -/
def pinsert {α β : Type} [DecidableEq α] (l : List (α × β)) (key : α) (v : β) :
    List (α × β) :=
  (key, v) :: perase l key

/-- `bimap.BiMap.DeleteKey`: remove the pair with the given key, returning
its value and the remaining map.  Modelled from the spec: the bidirectional
request table of §4.1 (`delete-key(req) → block-id?`). -/
def bimapDeleteKey : List ((Nat × Nat) × Nat) → (Nat × Nat) →
    Option (Nat × List ((Nat × Nat) × Nat))
  | [], _ => none
  | (k, v) :: rest, key =>
    if k = key then some (v, rest)
    else
      match bimapDeleteKey rest key with
      | none => none
      | some (v', rest') => some (v', (k, v) :: rest')

/-- `bimap.BiMap.DeleteValue`: remove the pair with the given value,
returning its key and the remaining map.  Modelled from the spec: §4.1
(`delete-value(block-id) → req?`). -/
def bimapDeleteValue : List ((Nat × Nat) × Nat) → Nat →
    Option ((Nat × Nat) × List ((Nat × Nat) × Nat))
  | [], _ => none
  | (k, v) :: rest, val =>
    if v = val then some (k, rest)
    else
      match bimapDeleteValue rest val with
      | none => none
      | some (k', rest') => some (k', (k, v) :: rest')

/-- `bimap.BiMap.HasValue`.  Modelled from the spec: §4.1. -/
def bimapHasValue (l : List ((Nat × Nat) × Nat)) (val : Nat) : Bool :=
  l.any (fun p => p.2 = val)

/-- Remove all pairs with the given value. -/
def bimapEraseValue (l : List ((Nat × Nat) × Nat)) (val : Nat) :
    List ((Nat × Nat) × Nat) :=
  l.filter (fun p => p.2 ≠ val)

/-- `bimap.BiMap.Put`: insert a pair, displacing any stale pair sharing the
key or the value.  Modelled from the spec: §4.1. -/
def bimapPut (l : List ((Nat × Nat) × Nat)) (key : Nat × Nat) (val : Nat) :
    List ((Nat × Nat) × Nat) :=
  (key, val) :: perase (bimapEraseValue l val) key

/-- `math.Add64`: checked `uint64` addition. -/
def add64 (a b : Nat) : Option Nat :=
  if a + b < 18446744073709551616 then some (a + b) else none

/-- `uint32` wrap-around for the engine's request counter (`t.requestID++`). -/
def incReqID (r : Nat) : Nat :=
  (r + 1) % 4294967296

/-- `isBlockDecided`: a block's height indicates that it has been decided. -/
def isBlockDecided (env : Env) (cons : Nat) (blk : Block) : Bool :=
  let blkHeight := blk.height
  let lastAcceptedID := (env.consLastAccepted cons).1
  let lastAcceptedHeight := (env.consLastAccepted cons).2
  if blkHeight ≤ lastAcceptedHeight then true
  else
    let parentID := blk.parent
    let nextHeightToAccept := lastAcceptedHeight + 1
    blkHeight = nextHeightToAccept && parentID ≠ lastAcceptedID

/-- `shouldBlockBeDropped`: the block is already processing or decided. -/
def shouldBlockBeDropped (env : Env) (cons : Nat) (blk : Block) : Bool :=
  env.consProcessing cons blk.id || isBlockDecided env cons blk

/-- `canBlockHaveChildIssued`: the parent is the last accepted block or is
processing. -/
def canBlockHaveChildIssued (env : Env) (cons : Nat) (parentID : Nat) : Bool :=
  parentID = (env.consLastAccepted cons).1 || env.consProcessing cons parentID

/-- `shouldBlockBeQueuedForIssuance`. -/
def shouldBlockBeQueuedForIssuance (env : Env) (cons : Nat)
    (pendingBlocks : List (Nat × Block)) (blk : Block) : Bool :=
  if shouldBlockBeDropped env cons blk then false
  else (plookup pendingBlocks blk.id).isNone

/-- `Transitive.getBlock`: pending table, then the non-verified cache, then
the VM. -/
def getBlock (env : Env) (s : EngineState) (blkID : Nat) : Option Block :=
  match plookup s.pending blkID with
  | some blk => some blk
  | none =>
    match plookup s.nonVerifiedCache blkID with
    | some blk => some blk
    | none => env.vmGetBlock blkID

/-- `Transitive.sendRequest`: request the block from the peer unless an
outstanding request already references it. -/
def sendRequest (s : EngineState) (nodeID blkID tag : Nat) :
    EngineState × List Event :=
  if bimapHasValue s.blkReqs blkID then (s, [])
  else
    let rid := incReqID s.requestID
    let req : Nat × Nat := (nodeID, rid)
    ({ s with
        requestID := rid
        blkReqs := bimapPut s.blkReqs req blkID
        blkReqSourceMetric := pinsert s.blkReqSourceMetric req tag },
      [Event.sendGet nodeID rid blkID])

/-- `t.blkReqs.DeleteValue(blkID)` followed by the deletion of the request's
metric tag, as performed at the head of `issueChain`, in `buildBlock` and in
`deliver`. -/
def removeReqByValue (s : EngineState) (blkID : Nat) : EngineState :=
  match bimapDeleteValue s.blkReqs blkID with
  | none => s
  | some (req, rest) =>
    { s with
        blkReqs := rest
        blkReqSourceMetric := perase s.blkReqSourceMetric req }

/-- `Transitive.addToNonVerifieds`. -/
def addToNonVerifieds (env : Env) (s : EngineState) (blk : Block) : EngineState :=
  if shouldBlockBeDropped env s.cons blk then s
  else
    let parentID := blk.parent
    if (plookup s.nonVerifieds parentID).isSome || env.consProcessing s.cons parentID then
      { s with
          nonVerifieds := pinsert s.nonVerifieds blk.id parentID
          nonVerifiedCache := pinsert s.nonVerifiedCache blk.id blk }
    else s

/-- `Transitive.sendChits`: answer a query according to the state-sync /
pruning policy of the source. -/
def sendChits (env : Env) (s : EngineState) (nodeID rid requestedHeight : Nat) :
    List Event :=
  let lastAcceptedID := (env.consLastAccepted s.cons).1
  let lastAcceptedHeight := (env.consLastAccepted s.cons).2
  if s.stateSyncing || env.partialSync then
    let acceptedAtHeight :=
      match env.vmGetBlockIDAtHeight requestedHeight with
      | some b => b
      | none => lastAcceptedID
    [Event.sendChitsMsg nodeID rid lastAcceptedID acceptedAtHeight lastAcceptedID]
  else
    let preference := env.consPreference s.cons
    let preferenceAtHeight :=
      if requestedHeight < lastAcceptedHeight then
        match env.vmGetBlockIDAtHeight requestedHeight with
        | some b => b
        | none => lastAcceptedID
      else
        match env.consPreferenceAtHeight s.cons requestedHeight with
        | some b => b
        | none => preference
    [Event.sendChitsMsg nodeID rid preference preferenceAtHeight lastAcceptedID]

/-- `Transitive.sendQuery`: sample validators, compute the next height to
accept, register a poll and emit a push or pull query; each failure drops
the query at exactly the point the source does. -/
def sendQuery (env : Env) (s : EngineState) (blkID : Nat) (blkBytes : List Nat)
    (push : Bool) : EngineState × List Event :=
  match env.valSample with
  | none => (s, [])
  | some vdrIDs =>
    let lastAcceptedHeight := (env.consLastAccepted s.cons).2
    match add64 lastAcceptedHeight 1 with
    | none => (s, [])
    | some nextHeightToAccept =>
      let rid := incReqID s.requestID
      let s1 := { s with requestID := rid }
      match env.pollsAdd s1.pollSt rid vdrIDs with
      | none => (s1, [])
      | some pollSt' =>
        let s2 := { s1 with pollSt := pollSt' }
        if push then
          (s2, [Event.sendPushQuery vdrIDs rid blkBytes nextHeightToAccept])
        else
          (s2, [Event.sendPullQuery vdrIDs rid blkID nextHeightToAccept])

/-- `ancestor.Tree.GetAncestor`.  Modelled from the spec: the non-verified
index's ancestor lookup (§4.5.1, §9), an iterative walk along parent edges
returning the argument when it is not indexed; the fuel bounds the walk. -/
def treeGetAncestor (tree : List (Nat × Nat)) : Nat → Nat → Nat
  | 0, blkID => blkID
  | fuel + 1, blkID =>
    match plookup tree blkID with
    | none => blkID
    | some parentID => treeGetAncestor tree fuel parentID

/-- The loop of `Transitive.getProcessingAncestor`: walk the bubbled vote
toward the accepted frontier until a processing block is found or the vote
must be dropped.  `some (some v)` = vote for `v`; `some none` = vote
dropped; `none` = out of fuel. -/
def gpaLoop (env : Env) (s : EngineState) (lastUsefulHeight : Nat) :
    Nat → Nat → Option (Option Nat)
  | 0, _ => none
  | fuel + 1, bubbledVote =>
    if env.consProcessing s.cons bubbledVote then some (some bubbledVote)
    else
      match getBlock env s bubbledVote with
      | none => some none
      | some blk =>
        if blk.height ≤ lastUsefulHeight then some none
        else gpaLoop env s lastUsefulHeight fuel blk.parent

/-- `Transitive.getProcessingAncestor`. -/
def getProcessingAncestor (env : Env) (s : EngineState) (fuel : Nat)
    (initialVote : Nat) : Option (Option Nat) :=
  let bubbledVote := treeGetAncestor s.nonVerifieds (s.nonVerifieds.length + 1) initialVote
  let lastAcceptedHeight := (env.consLastAccepted s.cons).2
  gpaLoop env s (lastAcceptedHeight + 1) fuel bubbledVote

/-- Apply `getProcessingAncestor` to each response option in order, stopping
at the first success (the vote a `voter` job applies; spec §4.5). -/
def firstProcessingAncestor (env : Env) (s : EngineState) (fuel : Nat) :
    List Nat → Option (Option Nat)
  | [] => some none
  | v :: rest =>
    match getProcessingAncestor env s fuel v with
    | none => none
    | some (some a) => some (some a)
    | some none => firstProcessingAncestor env s fuel rest

/-- Latch an error into `t.errs` (`wrappers.Errs.Add`; the first error is
kept and later ones ignored, matching `Errs.Err`). -/
def latchErr (s : EngineState) (e : Option Nat) : EngineState :=
  match s.errs, e with
  | none, some err => { s with errs := some err }
  | _, _ => s

/-- Error code standing for a failed `Consensus.Add`. -/
def consAddErrCode : Nat := 101

/-- Error code standing for an `Options` call failing with an error other
than `ErrNotOracle`. -/
def oracleOptionsErrCode : Nat := 102

/-- Error code standing for a failed `VM.LastAccepted` at `Start`. -/
def vmLastAcceptedErrCode : Nat := 103

/-- Error code standing for a failed last-accepted block fetch at `Start`. -/
def getLastAcceptedBlkErrCode : Nat := 104

/-- Error code standing for a failed `Consensus.Initialize` at `Start`. -/
def consInitializeErrCode : Nat := 105

/-- The dependency set of a blocked job. -/
def BJob.deps : BJob → List Nat
  | .issuer _ _ _ _ deps _ => deps
  | .voter _ _ _ deps => deps

/-- Resolve the dependency `depID` inside a single blocked job: remove it
from the job's dependency set; an abandonment (`ab = true`) additionally
marks an issuer as abandoned.  Modelled from the spec: §3, §9 ("when a dep
resolves, decrement the set and run if empty"). -/
def BJob.resolveDep (ab : Bool) (depID : Nat) : BJob → BJob
  | .issuer nodeID blk push tag deps abandoned =>
    if depID ∈ deps then
      .issuer nodeID blk push tag (deps.erase depID) (abandoned || ab)
    else .issuer nodeID blk push tag deps abandoned
  | .voter vdr rid responseOptions deps =>
    if depID ∈ deps then .voter vdr rid responseOptions (deps.erase depID)
    else .voter vdr rid responseOptions deps

/-- Result of an engine computation: a returned boolean together with the
engine state and the emitted events, a returned (non-latched) Go error, or
fuel exhaustion of the model. -/
inductive Res where
  | ok (b : Bool) (s : EngineState) (evs : List Event) : Res
  | fail (e : Nat) (s : EngineState) (evs : List Event) : Res
  | nofuel : Res

/-- Prepend already-emitted events to a result. -/
def Res.pre (evs : List Event) : Res → Res
  | .ok b s evs' => .ok b s (evs ++ evs')
  | .fail e s evs' => .fail e s (evs ++ evs')
  | .nofuel => .nofuel

/-- Sequence two engine computations, propagating errors and fuel
exhaustion and accumulating events. -/
def Res.bind (r : Res) (f : Bool → EngineState → Res) : Res :=
  match r with
  | .ok b s evs => Res.pre evs (f b s)
  | .fail e s evs => .fail e s evs
  | .nofuel => .nofuel

/-- Entry points of the mutually recursive part of the engine: the issuer
loop, `deliver` and its work queue, the blocked-job registry operations
(`Register` / `Fulfill` / `Abandon` and job execution), `buildBlock` and
the deferred-work driver. -/
inductive Call where
  | issueID (nodeID blkID tag : Nat) : Call
  | issueChain (nodeID : Nat) (blk : Block) (tag : Nat) : Call
  | deliver (nodeID : Nat) (blk : Block) (push : Bool) (tag : Nat) : Call
  | deliverLoop (nodeID : Nat) (push : Bool) (tag : Nat)
      (blksToIssue blksToFulfill : List Block) (blksToAbandon : List Nat) : Call
  | fulfillPhase (push : Bool) (blksToFulfill : List Block) : Call
  | abandonPhase (blksToAbandon : List Nat) : Call
  | resolve (ab : Bool) (blkID : Nat) : Call
  | runJobs (jobs : List BJob) : Call
  | runJob (job : BJob) : Call
  | register (job : BJob) : Call
  | buildBlock : Call
  | buildLoop : Call
  | edw : Call

/-- Send the repoll queries of the deferred-work driver: the source runs
`sendQuery` once for each index from `t.polls.Len()` up to
`ConcurrentRepolls` at the current preference with `nil` bytes. -/
def repolls (env : Env) (preferredID : Nat) :
    Nat → EngineState → EngineState × List Event
  | 0, s => (s, [])
  | n + 1, s =>
    let r := sendQuery env s preferredID [] false
    let r' := repolls env preferredID n r.1
    (r'.1, r.2 ++ r'.2)

/-- The mutually recursive core of the engine, translated from the source
with an explicit fuel parameter.  The blocked-job registry semantics
(`Call.resolve`, `Call.runJobs`, `Call.runJob`, `Call.register`) is
modelled from the spec (§3, §4.3, §9): `event.Blocker`, `issuer.go` and
`voter.go` are not among the sources at hand. -/
def exec (env : Env) : Nat → Call → EngineState → Res
  | 0, _, _ => .nofuel
  | fuel + 1, call, s =>
    match call with
    | .issueID nodeID blkID tag =>
      match getBlock env s blkID with
      | none =>
        let r := sendRequest s nodeID blkID tag
        .ok true r.1 r.2
      | some blk => exec env fuel (.issueChain nodeID blk tag) s
    | .issueChain nodeID blk tag =>
      let blkID := blk.id
      let s := removeReqByValue s blkID
      if isBlockDecided env s.cons blk then
        Res.bind (exec env fuel (.resolve true blkID) s) (fun _ s' =>
          match s'.errs with
          | some e => .fail e s' []
          | none => .ok false s' [])
      else if canBlockHaveChildIssued env s.cons blkID then
        .ok false s []
      else if (plookup s.pending blkID).isSome then
        .ok true s []
      else
        let parentID := blk.parent
        if canBlockHaveChildIssued env s.cons parentID then
          Res.bind (exec env fuel (.deliver nodeID blk false tag) s)
            (fun _ s' => .ok false s' [])
        else
          let s := { s with pending := pinsert s.pending blkID blk }
          Res.bind
            (exec env fuel
              (.register (.issuer nodeID blk false tag [parentID] false)) s)
            (fun _ s' =>
              match getBlock env s' parentID with
              | some parentBlk => exec env fuel (.issueChain nodeID parentBlk tag) s'
              | none =>
                let r := sendRequest s' nodeID blkID tag
                .ok true r.1 r.2)
    | .deliver nodeID blk push tag =>
      exec env fuel (.deliverLoop nodeID push tag [blk] [] []) s
    | .deliverLoop nodeID push tag blksToIssue blksToFulfill blksToAbandon =>
      match blksToIssue with
      | [] =>
        let preferredID := env.consPreference s.cons
        match env.vmSetPreferenceErr preferredID with
        | some e => .fail e s [Event.setPreference preferredID]
        | none =>
          Res.pre [Event.setPreference preferredID]
            (Res.bind (exec env fuel (.fulfillPhase push blksToFulfill) s)
              (fun _ s' =>
                Res.bind (exec env fuel (.abandonPhase blksToAbandon) s')
                  (fun _ s'' =>
                    match s''.errs with
                    | some e => .fail e s'' []
                    | none => .ok false s'' [])))
      | blk :: rest =>
        let blkID := blk.id
        if shouldBlockBeDropped env s.cons blk then
          exec env fuel (.deliverLoop nodeID push tag rest blksToFulfill
            (blksToAbandon ++ [blkID])) s
        else if !canBlockHaveChildIssued env s.cons blk.parent then
          exec env fuel (.deliverLoop nodeID push tag rest blksToFulfill
            (blksToAbandon ++ [blkID])) s
        else if !blk.verifyOk then
          let s := addToNonVerifieds env s blk
          exec env fuel (.deliverLoop nodeID push tag rest blksToFulfill
            (blksToAbandon ++ [blkID])) s
        else
          let s := { s with
              nonVerifieds := perase s.nonVerifieds blkID
              nonVerifiedCache := perase s.nonVerifiedCache blkID }
          match env.consAdd s.cons blk with
          | none => .fail consAddErrCode s [Event.consAddCall blkID]
          | some cons' =>
            let s := { s with cons := cons' }
            let cont := fun (queue : List Block) =>
              Res.pre [Event.consAddCall blkID]
                (exec env fuel (.deliverLoop nodeID push tag queue
                  (blksToFulfill ++ [blk]) blksToAbandon) s)
            match blk.options with
            | .notOracle => cont rest
            | .failed => .fail oracleOptionsErrCode s [Event.consAddCall blkID]
            | .opts options => cont (rest ++ options)
    | .fulfillPhase push blksToFulfill =>
      match blksToFulfill with
      | [] => .ok false s []
      | blk :: rest =>
        let blkID := blk.id
        let r :=
          if env.consIsPreferred s.cons blkID then
            sendQuery env s blkID blk.bytes push
          else (s, [])
        let s1 := { r.1 with pending := perase r.1.pending blkID }
        let s2 := removeReqByValue s1 blkID
        Res.pre r.2
          (Res.bind (exec env fuel (.resolve false blkID) s2) (fun _ s' =>
            exec env fuel (.fulfillPhase push rest) s'))
    | .abandonPhase blksToAbandon =>
      match blksToAbandon with
      | [] => .ok false s []
      | blkID :: rest =>
        let s1 := { s with pending := perase s.pending blkID }
        let s2 := removeReqByValue s1 blkID
        Res.bind (exec env fuel (.resolve true blkID) s2) (fun _ s' =>
          exec env fuel (.abandonPhase rest) s')
    | .resolve ab blkID =>
      let updated := s.blocked.map (BJob.resolveDep ab blkID)
      let ready := updated.filter (fun j => j.deps.isEmpty)
      let rest := updated.filter (fun j => !j.deps.isEmpty)
      exec env fuel (.runJobs ready) { s with blocked := rest }
    | .runJobs jobs =>
      match jobs with
      | [] => .ok false s []
      | j :: rest =>
        Res.bind (exec env fuel (.runJob j) s) (fun _ s' =>
          exec env fuel (.runJobs rest) s')
    | .runJob job =>
      match job with
      | .issuer nodeID blk push tag _ abandoned =>
        if abandoned then
          let s1 := { s with pending := perase s.pending blk.id }
          exec env fuel (.resolve true blk.id) s1
        else if s.errs.isSome then .ok false s []
        else
          match exec env fuel (.deliver nodeID blk push tag) s with
          | .ok _ s' evs => .ok false s' evs
          | .fail e s' evs => .ok false (latchErr s' (some e)) evs
          | .nofuel => .nofuel
      | .voter vdr rid responseOptions _ =>
        if s.errs.isSome then .ok false s []
        else
          match firstProcessingAncestor env s fuel responseOptions with
          | none => .nofuel
          | some vote =>
            let r := env.applyVote s.pollSt s.cons vdr rid vote
            .ok false { s with pollSt := r.1, cons := r.2 } []
    | .register job =>
      if job.deps.isEmpty then
        match job with
        | .voter vdr rid responseOptions _ =>
          Res.pre [Event.voterRegistered vdr rid responseOptions]
            (exec env fuel (.runJob job) s)
        | _ => exec env fuel (.runJob job) s
      else
        match job with
        | .voter vdr rid responseOptions _ =>
          .ok false { s with blocked := s.blocked ++ [job] }
            [Event.voterRegistered vdr rid responseOptions]
        | _ => .ok false { s with blocked := s.blocked ++ [job] } []
    | .buildBlock =>
      let c := s.buildCount
      let s := { s with buildCount := c + 1 }
      match env.vmBuildBlock c with
      | none => .ok false s []
      | some blk =>
        if shouldBlockBeDropped env s.cons blk then .ok false s []
        else if !canBlockHaveChildIssued env s.cons blk.parent then .ok false s []
        else
          let s := removeReqByValue s blk.id
          exec env fuel (.deliver env.selfNodeID blk true builtSource) s
    | .buildLoop =>
      if s.pendingBuildBlocks > 0 && env.consNumProcessing s.cons < env.optimalProcessing then
        let s1 := { s with pendingBuildBlocks := s.pendingBuildBlocks - 1 }
        Res.bind (exec env fuel .buildBlock s1) (fun _ s' =>
          exec env fuel .buildLoop s')
      else .ok false s []
    | .edw =>
      match s.errs with
      | some e => .fail e s []
      | none =>
        Res.bind (exec env fuel .buildLoop s) (fun _ s1 =>
          let r :=
            if env.consNumProcessing s1.cons > 0 then
              let preferredID := env.consPreference s1.cons
              let n := env.pollsLen s1.pollSt
              repolls env preferredID (env.concurrentRepolls - n) s1
            else (s1, [])
          match r.1.errs with
          | some e => .fail e r.1 r.2
          | none => .ok false r.1 r.2)

/-- `Transitive.Put`. -/
def Put (env : Env) (fuel : Nat) (s : EngineState) (nodeID requestID : Nat)
    (blkBytes : List Nat) : Res :=
  let request : Nat × Nat := (nodeID, requestID)
  match bimapDeleteKey s.blkReqs request with
  | none =>
    .ok false
      { s with numUselessPutBytes := s.numUselessPutBytes + blkBytes.length } []
  | some (expectedBlkID, blkReqs') =>
    let issuedMetric :=
      match plookup s.blkReqSourceMetric request with
      | some tag => tag
      | none => pullGossipSource
    let s := { s with
        blkReqs := blkReqs'
        blkReqSourceMetric := perase s.blkReqSourceMetric request }
    match env.vmParseBlock blkBytes with
    | none =>
      let s :=
        { s with numUselessPutBytes := s.numUselessPutBytes + blkBytes.length }
      Res.bind (exec env fuel (.resolve true expectedBlkID) s) (fun _ s' =>
        exec env fuel .edw s')
    | some blk =>
      if blk.id ≠ expectedBlkID then
        let s :=
          { s with numUselessPutBytes := s.numUselessPutBytes + blkBytes.length }
        Res.bind (exec env fuel (.resolve true expectedBlkID) s) (fun _ s' =>
          exec env fuel .edw s')
      else
        let s :=
          if shouldBlockBeQueuedForIssuance env s.cons s.pending blk then s
          else
            { s with numUselessPutBytes := s.numUselessPutBytes + blkBytes.length }
        Res.bind (exec env fuel (.issueChain nodeID blk issuedMetric) s)
          (fun _ s' => exec env fuel .edw s')

/-- `Transitive.GetFailed`. -/
def GetFailed (env : Env) (fuel : Nat) (s : EngineState) (nodeID requestID : Nat) :
    Res :=
  let request : Nat × Nat := (nodeID, requestID)
  match bimapDeleteKey s.blkReqs request with
  | none => .ok false s []
  | some (blkID, blkReqs') =>
    let s := { s with
        blkReqs := blkReqs'
        blkReqSourceMetric := perase s.blkReqSourceMetric request }
    Res.bind (exec env fuel (.resolve true blkID) s) (fun _ s' =>
      exec env fuel .edw s')

/-- `Transitive.PullQuery`. -/
def PullQuery (env : Env) (fuel : Nat) (s : EngineState)
    (nodeID requestID blkID requestedHeight : Nat) : Res :=
  let chitEvs := sendChits env s nodeID requestID requestedHeight
  Res.pre chitEvs
    (Res.bind (exec env fuel (.issueID nodeID blkID pushGossipSource) s)
      (fun _ s' => exec env fuel .edw s'))

/-- `Transitive.PushQuery`. -/
def PushQuery (env : Env) (fuel : Nat) (s : EngineState) (nodeID requestID : Nat)
    (blkBytes : List Nat) (requestedHeight : Nat) : Res :=
  let chitEvs := sendChits env s nodeID requestID requestedHeight
  Res.pre chitEvs
    (match env.vmParseBlock blkBytes with
    | none => .ok false s []
    | some blk =>
      let s :=
        if shouldBlockBeQueuedForIssuance env s.cons s.pending blk then s
        else
          { s with numUselessPushQueryBytes :=
              s.numUselessPushQueryBytes + blkBytes.length }
      Res.bind (exec env fuel (.issueChain nodeID blk pushGossipSource) s)
        (fun _ s' => exec env fuel .edw s'))

/-- `Transitive.Chits`. -/
def Chits (env : Env) (fuel : Nat) (s : EngineState)
    (nodeID requestID preferredID preferredIDAtHeight acceptedID : Nat) : Res :=
  let s :=
    { s with acceptedFrontiers := pinsert s.acceptedFrontiers nodeID acceptedID }
  Res.bind (exec env fuel (.issueID nodeID preferredID pullGossipSource) s)
    (fun shouldWaitOnPreferred s1 =>
      if preferredID ≠ preferredIDAtHeight then
        Res.bind
          (exec env fuel (.issueID nodeID preferredIDAtHeight pullGossipSource) s1)
          (fun shouldWaitOnPreferredIDAtHeight s2 =>
            let responseOptions := [preferredID, preferredIDAtHeight]
            let deps :=
              (if shouldWaitOnPreferred then [preferredID] else []) ++
                (if shouldWaitOnPreferredIDAtHeight then [preferredIDAtHeight] else [])
            Res.bind
              (exec env fuel
                (.register (.voter nodeID requestID responseOptions deps)) s2)
              (fun _ s3 => exec env fuel .edw s3))
      else
        let responseOptions := [preferredID]
        let deps := if shouldWaitOnPreferred then [preferredID] else []
        Res.bind
          (exec env fuel
            (.register (.voter nodeID requestID responseOptions deps)) s1)
          (fun _ s3 => exec env fuel .edw s3))

/-- `Transitive.QueryFailed`. -/
def QueryFailed (env : Env) (fuel : Nat) (s : EngineState)
    (nodeID requestID : Nat) : Res :=
  match plookup s.acceptedFrontiers nodeID with
  | some lastAccepted =>
    Chits env fuel s nodeID requestID lastAccepted lastAccepted lastAccepted
  | none =>
    Res.bind (exec env fuel (.register (.voter nodeID requestID [] [])) s)
      (fun _ s' => exec env fuel .edw s')

/-- The `common.Message` argument of `Notify`. -/
inductive NotifyMsg where
  | pendingTxs : NotifyMsg
  | stateSyncDone : NotifyMsg
  | other : NotifyMsg
deriving DecidableEq

/-- `Transitive.Notify`. -/
def Notify (env : Env) (fuel : Nat) (s : EngineState) (msg : NotifyMsg) : Res :=
  match msg with
  | .pendingTxs =>
    exec env fuel .edw { s with pendingBuildBlocks := s.pendingBuildBlocks + 1 }
  | .stateSyncDone => .ok false { s with stateSyncing := false } []
  | .other => .ok false s []

/-- `Transitive.Gossip`. -/
def Gossip (env : Env) (fuel : Nat) (s : EngineState) : Res :=
  if env.consNumProcessing s.cons ≠ 0 then exec env fuel .edw s
  else
    match env.connSample with
    | none => .ok false s []
    | some vdrID =>
      let lastAcceptedHeight := (env.consLastAccepted s.cons).2
      match add64 lastAcceptedHeight 1 with
      | none => .ok false s []
      | some nextHeightToAccept =>
        let rid := incReqID s.requestID
        .ok false { s with requestID := rid }
          [Event.sendPullQuery [vdrID] rid (env.consPreference s.cons)
            nextHeightToAccept]

/-- Deliver each oracle option of the last-accepted block in order
(the loop of `Start`'s oracle branch). -/
def deliverAll (env : Env) (fuel nodeID : Nat) :
    List Block → EngineState → Res
  | [], s => .ok false s []
  | blk :: rest, s =>
    Res.bind (exec env fuel (.deliver nodeID blk false builtSource) s)
      (fun _ s' => deliverAll env fuel nodeID rest s')

/-- `Transitive.Start`. -/
def Start (env : Env) (fuel : Nat) (s : EngineState) (startReqID : Nat) : Res :=
  let s := { s with requestID := startReqID }
  match env.vmLastAccepted with
  | none => .fail vmLastAcceptedErrCode s []
  | some lastAcceptedID =>
    match getBlock env s lastAcceptedID with
    | none => .fail getLastAcceptedBlkErrCode s []
    | some lastAccepted =>
      match env.consInitialize lastAcceptedID lastAccepted.height
          lastAccepted.timestamp with
      | none => .fail consInitializeErrCode s []
      | some cons0 =>
        let s := { s with cons := cons0 }
        let afterPref : Res :=
          match lastAccepted.options with
          | .notOracle =>
            match env.vmSetPreferenceErr lastAcceptedID with
            | some e => .fail e s [Event.setPreference lastAcceptedID]
            | none => .ok false s [Event.setPreference lastAcceptedID]
          | .failed => .fail oracleOptionsErrCode s []
          | .opts options => deliverAll env fuel env.selfNodeID options s
        Res.bind afterPref (fun _ s' =>
          Res.pre [Event.setVMState normalOp]
            (match env.vmSetStateErr with
            | some e => .fail e s' []
            | none => exec env fuel .edw s'))

/-- An error returned by `Transitive.HealthCheck`: the VM error, the
consensus error, or the wrap of both
(`fmt.Errorf("vm: %w ; consensus: %w", vmErr, consensusErr)`). -/
inductive HErr where
  | vmErr (e : Nat) : HErr
  | consensusErr (e : Nat) : HErr
  | both (vm cons : Nat) : HErr
deriving DecidableEq

/-- `Transitive.HealthCheck`. -/
def HealthCheck (env : Env) (s : EngineState) :
    List (String × Nat) × Option HErr :=
  let consensusIntf := env.consHealthReport s.cons
  let consensusErr := env.consHealthErr s.cons
  let vmIntf := env.vmHealthReport
  let vmErr := env.vmHealthErr
  let intf := [("consensus", consensusIntf), ("vm", vmIntf)]
  match consensusErr with
  | none => (intf, vmErr.map HErr.vmErr)
  | some ce =>
    match vmErr with
    | none => (intf, some (HErr.consensusErr ce))
    | some ve => (intf, some (HErr.both ve ce))

/-- One inbound handler invocation with its arguments. -/
inductive HCall where
  | put (nodeID requestID : Nat) (blkBytes : List Nat) : HCall
  | getFailed (nodeID requestID : Nat) : HCall
  | pullQuery (nodeID requestID blkID requestedHeight : Nat) : HCall
  | pushQuery (nodeID requestID : Nat) (blkBytes : List Nat)
      (requestedHeight : Nat) : HCall
  | chits (nodeID requestID preferredID preferredIDAtHeight acceptedID : Nat) : HCall
  | queryFailed (nodeID requestID : Nat) : HCall
  | notify (msg : NotifyMsg) : HCall
  | gossip : HCall
  | start (startReqID : Nat) : HCall

/-- Dispatch one handler invocation. -/
def runHandler (env : Env) (fuel : Nat) (c : HCall) (s : EngineState) : Res :=
  match c with
  | .put nodeID requestID blkBytes => Put env fuel s nodeID requestID blkBytes
  | .getFailed nodeID requestID => GetFailed env fuel s nodeID requestID
  | .pullQuery nodeID requestID blkID requestedHeight =>
    PullQuery env fuel s nodeID requestID blkID requestedHeight
  | .pushQuery nodeID requestID blkBytes requestedHeight =>
    PushQuery env fuel s nodeID requestID blkBytes requestedHeight
  | .chits nodeID requestID preferredID preferredIDAtHeight acceptedID =>
    Chits env fuel s nodeID requestID preferredID preferredIDAtHeight acceptedID
  | .queryFailed nodeID requestID => QueryFailed env fuel s nodeID requestID
  | .notify msg => Notify env fuel s msg
  | .gossip => Gossip env fuel s
  | .start startReqID => Start env fuel s startReqID

/-- The engine state after a handler invocation.  A returned Go error keeps
the state mutated so far (the engine object persists); running out of model
fuel yields `none`. -/
def stepState : Res → Option EngineState
  | .ok _ s _ => some s
  | .fail _ s _ => some s
  | .nofuel => none

/-- Run a sequence of handler invocations, each with its own fuel. -/
def runSeq (env : Env) : List (Nat × HCall) → EngineState → Option EngineState
  | [], s => some s
  | (fuel, c) :: rest, s =>
    match stepState (runHandler env fuel c s) with
    | none => none
    | some s' => runSeq env rest s'

/-- The freshly constructed engine (`New`): empty tables, zero counters,
with the given initial collaborator state handles. -/
def initState (cons pollSt : Nat) : EngineState :=
  { requestID := 0
    blkReqs := []
    blkReqSourceMetric := []
    pending := []
    nonVerifieds := []
    nonVerifiedCache := []
    acceptedFrontiers := []
    blocked := []
    pendingBuildBlocks := 0
    errs := none
    numUselessPutBytes := 0
    numUselessPushQueryBytes := 0
    buildCount := 0
    stateSyncing := false
    cons := cons
    pollSt := pollSt }

/-- The events of a result (none if the model ran out of fuel). -/
def Res.events : Res → List Event
  | .ok _ _ evs => evs
  | .fail _ _ evs => evs
  | .nofuel => []

/-- Whether a result is a normal return (a `nil` Go error). -/
def Res.isOkB : Res → Bool
  | .ok _ _ _ => true
  | _ => false

/-- The boolean returned by a normal return. -/
def Res.retB : Res → Option Bool
  | .ok b _ _ => some b
  | _ => none

/-- The engine state of a result, defaulting to the fresh engine. -/
def Res.stateD (r : Res) : EngineState :=
  match r with
  | .ok _ s _ => s
  | .fail _ s _ => s
  | .nofuel => initState 0 0

/-- Whether an event is a voter-registration ghost event. -/
def isVR : Event → Bool
  | .voterRegistered _ _ _ => true
  | _ => false

/-- The voter-registration ghost events among a list of events. -/
def vrEvents (evs : List Event) : List Event :=
  evs.filter isVR

/-- Calls of the recursive engine core never register voter jobs (voters
are only registered by the `Chits` and `QueryFailed` handlers); this
predicate rules out the one `Call` shape that would. -/
def Call.noVoterRegArg : Call → Prop
  | .register (.voter _ _ _ _) => False
  | _ => True

/-- Whether an event is an outbound `Sender` message. -/
def isOutbound : Event → Bool
  | .sendGet _ _ _ => true
  | .sendPullQuery _ _ _ _ => true
  | .sendPushQuery _ _ _ _ => true
  | .sendChitsMsg _ _ _ _ _ => true
  | _ => false

/-- The outbound `Sender` messages among a list of events. -/
def outboundEvents (evs : List Event) : List Event :=
  evs.filter isOutbound

/-- The block ids passed to `VM.SetPreference`, in call order. -/
def setPrefIDs (evs : List Event) : List Nat :=
  evs.filterMap fun e =>
    match e with
    | .setPreference i => some i
    | _ => none

/-- The block ids passed to `Consensus.Add`, in call order. -/
def addedIDs (evs : List Event) : List Nat :=
  evs.filterMap fun e =>
    match e with
    | .consAddCall i => some i
    | _ => none

/-- The pull-query messages among a list of events. -/
def pullQueryEvents (evs : List Event) : List Event :=
  evs.filter fun e =>
    match e with
    | .sendPullQuery _ _ _ _ => true
    | _ => false

/-- The `Get` messages among a list of events. -/
def getEvents (evs : List Event) : List Event :=
  evs.filter fun e =>
    match e with
    | .sendGet _ _ _ => true
    | _ => false

/-- Claim C8's synchronisation invariant: a request carries a metric tag
iff it is outstanding in the request table. -/
def ReqSync (s : EngineState) : Prop :=
  ∀ r : Nat × Nat,
    (plookup s.blkReqSourceMetric r).isSome = (plookup s.blkReqs r).isSome

/-- The request table never holds two pairs with the same request key
(maintained by `bimap.BiMap`). -/
def ReqKeysNodup (s : EngineState) : Prop :=
  (s.blkReqs.map Prod.fst).Nodup

/-- The inductive invariant used to establish `ReqSync`. -/
def ReqInv (s : EngineState) : Prop :=
  ReqKeysNodup s ∧ ReqSync s

/-- C9's precondition: every block obtainable through `getBlock` has height
strictly greater than the height of the block obtainable for its parent. -/
def HeightMono (env : Env) (s : EngineState) : Prop :=
  ∀ id blk, getBlock env s id = some blk →
    ∀ pblk, getBlock env s blk.parent = some pblk → pblk.height < blk.height

/-- Fuel sufficient for the `getProcessingAncestor` walk starting at the
given vote, under `HeightMono`. -/
def gpaFuelBound (env : Env) (s : EngineState) (v : Nat) : Nat :=
  match getBlock env s v with
  | none => 1
  | some blk => blk.height + 2

/-- The dependency list of an issuer job (`none` for voters). -/
def issuerDeps : BJob → Option (List Nat)
  | .issuer _ _ _ _ deps _ => some deps
  | _ => none

/-- The block id of an issuer job (`none` for voters). -/
def issuerBlkID : BJob → Option Nat
  | .issuer _ blk _ _ _ _ => some blk.id
  | _ => none

/-- Scenario block `A` (the last-accepted block, height 10). -/
def blkA : Block := Block.mk 100 99 10 0 [10] true ORes.notOracle

/-- Scenario block `D` (height 13, with unknown ancestors `C` (102) and
`B` (101) above `A`). -/
def blkD : Block := Block.mk 103 102 13 0 [13] true ORes.notOracle

/-- Environment of the ancestor-backfill scenario: the VM knows only the
last-accepted block `A` (100) and parses the bytes `[13]` to `D` (103);
consensus has accepted `A` at height 10 and processes nothing. -/
def envBug : Env :=
  { consProcessing := fun _ _ => false
    consPreference := fun _ => 100
    consIsPreferred := fun _ _ => false
    consPreferenceAtHeight := fun _ _ => none
    consLastAccepted := fun _ => (100, 10)
    consNumProcessing := fun _ => 0
    consAdd := fun c _ => some c
    consInitialize := fun _ _ _ => some 0
    vmParseBlock := fun bytes => if bytes = [13] then some blkD else none
    vmGetBlock := fun i => if i = 100 then some blkA else none
    vmBuildBlock := fun _ => none
    vmLastAccepted := some 100
    vmGetBlockIDAtHeight := fun _ => none
    vmSetPreferenceErr := fun _ => none
    vmSetStateErr := none
    valSample := none
    connSample := none
    pollsLen := fun _ => 0
    pollsAdd := fun p _ _ => some p
    applyVote := fun p c _ _ _ => (p, c)
    k := 1
    optimalProcessing := 1
    concurrentRepolls := 1
    partialSync := false
    selfNodeID := 0
    consHealthReport := fun _ => 0
    consHealthErr := fun _ => none
    vmHealthReport := 0
    vmHealthErr := none }

/-- Handler sequence of the backfill scenario: `Start`, a chit preferring
the unknown block `D` (which sends `Get` for `D`), then the matching `Put`
carrying `D`'s bytes while `D`'s parent `C` (102) is unknown. -/
def traceBug : List (Nat × HCall) :=
  [(50, HCall.start 10), (50, HCall.chits 1 77 103 103 100), (50, HCall.put 1 11 [13])]

/-- The engine state after `Start` and the chit of the backfill scenario
(the `Get` for `D` under request id 11 is outstanding). -/
def stateAfterChit : EngineState :=
  match runSeq envBug [(50, HCall.start 10), (50, HCall.chits 1 77 103 103 100)]
      (initState 0 0) with
  | some s => s
  | none => initState 0 0

/-- The state reached by the entire backfill scenario. -/
def stateAfterPut : EngineState :=
  match runSeq envBug traceBug (initState 0 0) with
  | some s => s
  | none => initState 0 0

/-- The state of `stateAfterChit` just after `Put` has removed the
outstanding request and its metric tag — the state `issueChain` starts
from within the `Put` of the backfill scenario. -/
def stateIssueChain : EngineState :=
  { stateAfterChit with blkReqs := [], blkReqSourceMetric := [] }

/-- Oracle option block `L` (201) of the oracle-bootstrap scenario. -/
def blkL : Block := Block.mk 201 200 21 0 [21] true ORes.notOracle

/-- Oracle option block `R` (202) of the oracle-bootstrap scenario. -/
def blkR : Block := Block.mk 202 200 21 0 [22] true ORes.notOracle

/-- The last-accepted Oracle block `O` (200) with options `[L, R]`. -/
def blkO : Block := Block.mk 200 199 20 5 [20] true (ORes.opts [blkL, blkR])

/-- Environment of the oracle-bootstrap scenario: consensus states are
`0` (fresh after `Initialize`), `1` (after adding `L`), `2` (after adding
`R`); the preference is `L` throughout; one validator (7) is sampled; the
poll set counts its polls. -/
def envC3 : Env :=
  { consProcessing := fun c i =>
      (c = 1 && i = 201) || (c = 2 && (i = 201 || i = 202))
    consPreference := fun c => if c = 0 then 200 else 201
    consIsPreferred := fun c i =>
      (c = 1 && i = 201) || (c = 2 && i = 201)
    consPreferenceAtHeight := fun _ _ => none
    consLastAccepted := fun _ => (200, 20)
    consNumProcessing := fun c => if c = 1 then 1 else if c = 2 then 2 else 0
    consAdd := fun c blk =>
      if c = 0 && blk.id = 201 then some 1
      else if c = 1 && blk.id = 202 then some 2
      else none
    consInitialize := fun _ _ _ => some 0
    vmParseBlock := fun _ => none
    vmGetBlock := fun i => if i = 200 then some blkO else none
    vmBuildBlock := fun _ => none
    vmLastAccepted := some 200
    vmGetBlockIDAtHeight := fun _ => none
    vmSetPreferenceErr := fun _ => none
    vmSetStateErr := none
    valSample := some [7]
    connSample := none
    pollsLen := fun p => p
    pollsAdd := fun p _ _ => some (p + 1)
    applyVote := fun p c _ _ _ => (p, c)
    k := 1
    optimalProcessing := 1
    concurrentRepolls := 1
    partialSync := false
    selfNodeID := 0
    consHealthReport := fun _ => 0
    consHealthErr := fun _ => none
    vmHealthReport := 0
    vmHealthErr := none }

/-- Environment of the gossip counterexample: one block is processing,
no poll is outstanding and one repoll is allowed, so the deferred-work
driver issues a repoll pull query. -/
def envC4 : Env :=
  { envC3 with
    consNumProcessing := fun _ => 1
    consPreference := fun _ => 300
    consLastAccepted := fun _ => (299, 9)
    pollsLen := fun _ => 0 }

/-- Blocks of the `getProcessingAncestor` witness: 5 (height 3) above
4 (height 2); the parent 3 of block 4 is unknown. -/
def blk5 : Block := Block.mk 5 4 3 0 [5] true ORes.notOracle

/-- Block 4 of the `getProcessingAncestor` witness. -/
def blk4 : Block := Block.mk 4 3 2 0 [4] true ORes.notOracle

/-- Environment of the `getProcessingAncestor` witness: the VM knows
blocks 5 and 4, nothing is processing, the last accepted height is 0. -/
def envC9 : Env :=
  { envBug with
    consLastAccepted := fun _ => (0, 0)
    vmGetBlock := fun i => if i = 5 then some blk5 else if i = 4 then some blk4 else none }

/-- Environment of the health-check witness: both health checks fail. -/
def envC10 : Env :=
  { envBug with
    consHealthReport := fun _ => 21
    consHealthErr := fun _ => some 9
    vmHealthReport := 22
    vmHealthErr := some 7 }

/-- The `issueChain` run inside the `Put` of the backfill scenario. -/
def c1Res : Res :=
  exec envBug 50 (Call.issueChain 1 blkD pullGossipSource) stateIssueChain

/-- The `Start` run of the oracle-bootstrap scenario. -/
def c3Res : Res := Start envC3 50 (initState 0 0) 0

/-- The `Gossip` run of the gossip counterexample (one block processing). -/
def c4Res : Res := Gossip envC4 10 (initState 5 0)

/-- The request-table invariant holding for the state carried by a normal
or error return (vacuous on fuel exhaustion). -/
def ResInv (r : Res) : Prop :=
  match r with
  | .ok _ s _ => ReqInv s
  | .fail _ s _ => ReqInv s
  | .nofuel => True

/-- Claim C6: a `Put` whose `(peer, request-id)` pair matches no
outstanding `Get` request adds nothing to consensus, increments the
useless-put-bytes metric by the byte length, leaves all other engine state
unchanged and returns a nil error. -/
theorem put_orphan_reply (env : Env) (fuel : Nat) (s : EngineState)
    (nodeID requestID : Nat) (blkBytes : List Nat)
    (h : bimapDeleteKey s.blkReqs (nodeID, requestID) = none) :
    Put env fuel s nodeID requestID blkBytes =
      Res.ok false
        { s with numUselessPutBytes := s.numUselessPutBytes + blkBytes.length }
        [] := by
  simp [Put, h]

/-- Witness for C6: a concrete orphan `Put` on the fresh engine. -/
theorem put_orphan_reply_witness :
    bimapDeleteKey (initState 0 0).blkReqs (9, 9) = none ∧
    Put envBug 10 (initState 0 0) 9 9 [1, 2, 3] =
      Res.ok false { initState 0 0 with numUselessPutBytes := 3 } [] :=
  ⟨rfl, put_orphan_reply envBug 10 (initState 0 0) 9 9 [1, 2, 3] rfl⟩

/-- Claim C7: when validator sampling fails, `sendQuery` drops the query
with no state change — the request counter is untouched, no poll is
registered and no message is emitted. -/
theorem sendQuery_sampling_failure (env : Env) (s : EngineState)
    (blkID : Nat) (blkBytes : List Nat) (push : Bool)
    (h : env.valSample = none) :
    sendQuery env s blkID blkBytes push = (s, []) := by
  simp [sendQuery, h]

/-- Witness for C7: a concrete query drop in an environment without
validators. -/
theorem sendQuery_sampling_failure_witness :
    envBug.valSample = none ∧
    sendQuery envBug (initState 0 0) 42 [1] true = (initState 0 0, []) :=
  ⟨rfl, sendQuery_sampling_failure envBug (initState 0 0) 42 [1] true rfl⟩

/-- Counterexample to claim C4 as stated: with one block processing, a
`Gossip` invocation emits an outbound pull query (a repoll issued by the
deferred-work driver), so it is not free of outbound messages. -/
theorem gossip_processing_emits_query :
    envC4.consNumProcessing (initState 5 0).cons = 1 ∧
    outboundEvents (Res.events c4Res) = [Event.sendPullQuery [7] 1 300 10] ∧
    ¬ outboundEvents (Res.events c4Res) = [] := by
  decide

/-- Claim C4 (amended): when any block is processing, `Gossip` skips the
gossip query itself (no connected validator is sampled) and behaves
exactly as the deferred-work driver, whose repoll and build work may emit
messages. -/
theorem gossip_processing_is_deferred_work (env : Env) (fuel : Nat)
    (s : EngineState) (h : env.consNumProcessing s.cons ≠ 0) :
    Gossip env fuel s = exec env fuel Call.edw s := by
  simp [Gossip, h]

/-- Witness for the amended C4: the gossip counterexample run equals the
deferred-work run. -/
theorem gossip_processing_is_deferred_work_witness :
    envC4.consNumProcessing (initState 5 0).cons ≠ 0 ∧
    Gossip envC4 10 (initState 5 0) = exec envC4 10 Call.edw (initState 5 0) :=
  ⟨by decide, gossip_processing_is_deferred_work envC4 10 (initState 5 0) (by decide)⟩

/-- Claim C10: `HealthCheck` returns both the consensus and the VM health
reports, returns a nil error iff both sub-checks passed, and wraps both
errors when both fail. -/
theorem healthCheck_reports_and_errors (env : Env) (s : EngineState) :
    (HealthCheck env s).1 =
      [("consensus", env.consHealthReport s.cons), ("vm", env.vmHealthReport)] ∧
    ((HealthCheck env s).2 = none ↔
      env.consHealthErr s.cons = none ∧ env.vmHealthErr = none) ∧
    (∀ ce ve, env.consHealthErr s.cons = some ce → env.vmHealthErr = some ve →
      (HealthCheck env s).2 = some (HErr.both ve ce)) := by
  rcases hce : env.consHealthErr s.cons with _ | ce <;>
    rcases hve : env.vmHealthErr with _ | ve <;>
      simp [HealthCheck, hce, hve]

/-- Witness for C10: with both sub-checks failing, the returned error
wraps both. -/
theorem healthCheck_reports_and_errors_witness :
    (HealthCheck envC10 (initState 0 0)).2 = some (HErr.both 7 9) :=
  (healthCheck_reports_and_errors envC10 (initState 0 0)).2.2 9 7 rfl rfl

/-- Claim C1 (code bug): in the backfill scenario, `issueChain` on block
`D` (id 103, parent 102 missing) marks `D` pending, registers an issuer
job with deps `{102}` and returns `true`, but sends the `Get` request for
`D`'s own id 103 instead of the missing parent 102 — no request for the
parent exists afterwards. -/
theorem issueChain_missing_parent_requests_own_id :
    Res.retB c1Res = some true ∧
    blkD.id = 103 ∧ blkD.parent = 102 ∧
    getEvents (Res.events c1Res) = [Event.sendGet 1 12 blkD.id] ∧
    (Res.stateD c1Res).pending.map Prod.fst = [blkD.id] ∧
    (Res.stateD c1Res).blocked.map issuerDeps = [none, some [blkD.parent]] ∧
    bimapHasValue (Res.stateD c1Res).blkReqs blkD.parent = false ∧
    bimapHasValue (Res.stateD c1Res).blkReqs blkD.id = true := by
  decide

/-- Claim C2 (code bug): the reachable handler sequence `Start`, `Chits`
preferring the unknown block 103, then the matching `Put` of 103's bytes
leaves block id 103 simultaneously a value of the request table and a key
of the pending table. -/
theorem request_and_pending_overlap :
    (runSeq envBug traceBug (initState 0 0)).isSome = true ∧
    (plookup stateAfterPut.pending 103).isSome = true ∧
    bimapHasValue stateAfterPut.blkReqs 103 = true := by
  decide

/-- Counterexample to claim C3 as stated: in the oracle-bootstrap
scenario, `Start` calls `VM.SetPreference` twice (once per delivered
option) and emits one outbound pull query, not zero. -/
theorem start_oracle_counterexample :
    setPrefIDs (Res.events c3Res) = [201, 201] ∧
    addedIDs (Res.events c3Res) = [blkL.id, blkR.id] ∧
    outboundEvents (Res.events c3Res) = [Event.sendPullQuery [7] 1 201 21] ∧
    ¬ ((setPrefIDs (Res.events c3Res)).length = 1 ∧
        outboundEvents (Res.events c3Res) = []) := by
  decide

theorem vrEvents_append (a b : List Event) :
    vrEvents (a ++ b) = vrEvents a ++ vrEvents b := by
  simp [vrEvents]

theorem vrEvents_pre (evs : List Event) (r : Res) (h1 : vrEvents evs = [])
    (h2 : vrEvents (Res.events r) = []) :
    vrEvents (Res.events (Res.pre evs r)) = [] := by
  cases r <;> simp_all [Res.pre, Res.events, vrEvents_append]

theorem vrEvents_bind (r : Res) (f : Bool → EngineState → Res)
    (h1 : vrEvents (Res.events r) = [])
    (h2 : ∀ b s, vrEvents (Res.events (f b s)) = []) :
    vrEvents (Res.events (Res.bind r f)) = [] := by
  cases r with
  | ok b s evs => exact vrEvents_pre evs (f b s) h1 (h2 b s)
  | fail e s evs => exact h1
  | nofuel => rfl

theorem vrEvents_sendRequest (s : EngineState) (n b t : Nat) :
    vrEvents (sendRequest s n b t).2 = [] := by
  by_cases h : bimapHasValue s.blkReqs b <;>
    simp [sendRequest, h, vrEvents, isVR, List.filter]

theorem vrEvents_sendQuery (env : Env) (s : EngineState) (b : Nat)
    (bb : List Nat) (p : Bool) :
    vrEvents (sendQuery env s b bb p).2 = [] := by
  simp only [sendQuery]
  repeat' split
  all_goals rfl

theorem vrEvents_repolls (env : Env) (pid : Nat) :
    ∀ n s, vrEvents (repolls env pid n s).2 = [] := by
  intro n
  induction n with
  | zero => intro s; rfl
  | succ k ih =>
    intro s
    simp only [repolls]
    rw [vrEvents_append, vrEvents_sendQuery, ih]
    rfl

/-- The recursive engine core registers no voter job, hence emits no
voter-registration ghost event. -/
theorem exec_noVR (env : Env) :
    ∀ fuel call s, Call.noVoterRegArg call →
      vrEvents (Res.events (exec env fuel call s)) = [] := by
  intro fuel
  induction fuel with
  | zero => intro call s _; rfl
  | succ f ih =>
    intro call s hc
    cases call with
    | issueID nodeID blkID tag =>
      simp only [exec]
      split
      · exact vrEvents_sendRequest s nodeID blkID tag
      · exact ih _ s (by exact trivial)
    | issueChain nodeID blk tag =>
      simp only [exec]
      split
      · refine vrEvents_bind _ _ (ih _ _ (by exact trivial)) ?_
        intro b s'
        split <;> rfl
      · split
        · rfl
        · split
          · rfl
          · split
            · exact vrEvents_bind _ _ (ih _ _ (by exact trivial)) (fun _ _ => rfl)
            · refine vrEvents_bind _ _ (ih _ _ (by exact trivial)) ?_
              intro b s'
              split
              · exact ih _ s' (by exact trivial)
              · exact vrEvents_sendRequest _ _ _ _
    | deliver nodeID blk push tag =>
      simp only [exec]
      exact ih _ s (by exact trivial)
    | deliverLoop nodeID push tag blksToIssue blksToFulfill blksToAbandon =>
      cases blksToIssue with
      | nil =>
        simp only [exec]
        split
        · rfl
        · refine vrEvents_pre _ _ ?_ ?_
          · rfl
          · refine vrEvents_bind _ _ (ih _ _ (by exact trivial)) ?_
            intro b s'
            refine vrEvents_bind _ _ (ih _ _ (by exact trivial)) ?_
            intro b' s''
            split <;> rfl
      | cons blk rest =>
        simp only [exec]
        split
        · exact ih _ s (by exact trivial)
        · split
          · exact ih _ s (by exact trivial)
          · split
            · exact ih _ _ (by exact trivial)
            · split
              · rfl
              · split
                · refine vrEvents_pre _ _ ?_ (ih _ _ (by exact trivial))
                  rfl
                · rfl
                · refine vrEvents_pre _ _ ?_ (ih _ _ (by exact trivial))
                  rfl
    | fulfillPhase push blksToFulfill =>
      cases blksToFulfill with
      | nil => rfl
      | cons blk rest =>
        simp only [exec]
        refine vrEvents_pre _ _ ?_ ?_
        · split
          · exact vrEvents_sendQuery env s blk.id blk.bytes push
          · rfl
        · exact vrEvents_bind _ _ (ih _ _ (by exact trivial))
            (fun _ s' => ih _ s' (by exact trivial))
    | abandonPhase blksToAbandon =>
      cases blksToAbandon with
      | nil => rfl
      | cons blkID rest =>
        simp only [exec]
        exact vrEvents_bind _ _ (ih _ _ (by exact trivial))
          (fun _ s' => ih _ s' (by exact trivial))
    | resolve ab blkID =>
      simp only [exec]
      exact ih _ _ (by exact trivial)
    | runJobs jobs =>
      cases jobs with
      | nil => rfl
      | cons j rest =>
        simp only [exec]
        exact vrEvents_bind _ _ (ih _ _ (by exact trivial))
          (fun _ s' => ih _ s' (by exact trivial))
    | runJob job =>
      cases job with
      | issuer nodeID blk push tag deps abandoned =>
        simp only [exec]
        split
        · exact ih _ _ (by exact trivial)
        · split
          · rfl
          · split
            · next b s' evs heq =>
                have h2 := ih (.deliver nodeID blk push tag) s (by exact trivial)
                rw [heq] at h2
                exact h2
            · next e s' evs heq =>
                have h2 := ih (.deliver nodeID blk push tag) s (by exact trivial)
                rw [heq] at h2
                exact h2
            · rfl
      | voter vdr rid responseOptions deps =>
        simp only [exec]
        split
        · rfl
        · split <;> rfl
    | register job =>
      cases job with
      | issuer nodeID blk push tag deps abandoned =>
        simp only [exec]
        split
        · exact ih _ s (by exact trivial)
        · rfl
      | voter vdr rid responseOptions deps => exact hc.elim
    | buildBlock =>
      simp only [exec]
      split
      · rfl
      · split
        · rfl
        · split
          · rfl
          · exact ih _ _ (by exact trivial)
    | buildLoop =>
      simp only [exec]
      split
      · exact vrEvents_bind _ _ (ih _ _ (by exact trivial))
          (fun _ s' => ih _ s' (by exact trivial))
      · rfl
    | edw =>
      simp only [exec]
      split
      · rfl
      · refine vrEvents_bind _ _ (ih _ _ (by exact trivial)) ?_
        intro b s1
        by_cases hnp : env.consNumProcessing s1.cons > 0
        · simp only [if_pos hnp]
          rcases herr : (repolls env (env.consPreference s1.cons)
              (env.concurrentRepolls - env.pollsLen s1.pollSt) s1).1.errs with _ | e <;>
            simp only [herr]
          · exact vrEvents_repolls env _ _ _
          · exact vrEvents_repolls env _ _ _
        · simp only [if_neg hnp]
          split <;> rfl

/-- Registering a voter job either runs out of fuel or emits exactly its
registration ghost event. -/
theorem register_voter_vr (env : Env) (f : Nat) (n rid : Nat)
    (opts deps : List Nat) (s : EngineState) :
    exec env (f + 1) (.register (.voter n rid opts deps)) s = Res.nofuel ∨
    vrEvents (Res.events (exec env (f + 1) (.register (.voter n rid opts deps)) s)) =
      [Event.voterRegistered n rid opts] := by
  simp only [exec, BJob.deps]
  split
  · cases hrun : exec env f (.runJob (.voter n rid opts deps)) s with
    | ok b s' evs =>
      right
      have h2 := exec_noVR env f (.runJob (.voter n rid opts deps)) s True.intro
      rw [hrun] at h2
      simp only [Res.events] at h2
      simp only [Res.pre, Res.events, vrEvents_append, h2]
      rfl
    | fail e s' evs =>
      right
      have h2 := exec_noVR env f (.runJob (.voter n rid opts deps)) s True.intro
      rw [hrun] at h2
      simp only [Res.events] at h2
      simp only [Res.pre, Res.events, vrEvents_append, h2]
      rfl
    | nofuel =>
      left
      rfl
  · right
    simp [Res.events, vrEvents, isVR]

/-- Claim C5: a completed `Chits(peer, req-id, preferred-id,
preferred-id-at-height, accepted-id)` registers exactly one voter job,
whose response options are `[preferred-id]` when the two preferred ids
coincide and `[preferred-id, preferred-id-at-height]` in this order
otherwise. -/
theorem chits_voter_response_options (env : Env) (fuel : Nat) (s : EngineState)
    (nodeID requestID preferredID preferredIDAtHeight acceptedID : Nat)
    (h : Res.isOkB (Chits env fuel s nodeID requestID preferredID
        preferredIDAtHeight acceptedID) = true) :
    vrEvents (Res.events (Chits env fuel s nodeID requestID preferredID
        preferredIDAtHeight acceptedID)) =
      [Event.voterRegistered nodeID requestID
        (if preferredID = preferredIDAtHeight then [preferredID]
          else [preferredID, preferredIDAtHeight])] := by
  cases fuel with
  | zero => simp [Chits, exec, Res.bind, Res.isOkB] at h
  | succ f =>
    simp only [Chits] at h ⊢
    cases h1 : exec env (f + 1) (Call.issueID nodeID preferredID pullGossipSource)
        { s with acceptedFrontiers := pinsert s.acceptedFrontiers nodeID acceptedID } with
    | nofuel => rw [h1] at h; simp [Res.bind, Res.isOkB] at h
    | fail e s1 evs1 => rw [h1] at h; simp [Res.bind, Res.isOkB] at h
    | ok sw1 s1 evs1 =>
      rw [h1] at h
      have hv1 : vrEvents evs1 = [] := by
        have h2 := exec_noVR env (f + 1)
          (Call.issueID nodeID preferredID pullGossipSource)
          { s with acceptedFrontiers := pinsert s.acceptedFrontiers nodeID acceptedID }
          True.intro
        rw [h1] at h2
        exact h2
      simp only [Res.bind] at h ⊢
      by_cases hp : preferredID = preferredIDAtHeight
      · rw [if_neg (not_not_intro hp)] at h ⊢
        rw [if_pos hp]
        cases hr : exec env (f + 1)
            (Call.register (BJob.voter nodeID requestID [preferredID]
              (if sw1 = true then [preferredID] else []))) s1 with
        | nofuel => rw [hr] at h; simp [Res.bind, Res.pre, Res.isOkB] at h
        | fail e2 s2 evs2 => rw [hr] at h; simp [Res.bind, Res.pre, Res.isOkB] at h
        | ok b2 s2 evs2 =>
          rw [hr] at h
          have hv2 : vrEvents evs2 =
              [Event.voterRegistered nodeID requestID [preferredID]] := by
            rcases register_voter_vr env f nodeID requestID [preferredID]
                (if sw1 = true then [preferredID] else []) s1 with hreg | hreg
            · rw [hr] at hreg; exact absurd hreg (by simp)
            · rw [hr] at hreg; exact hreg
          simp only [Res.bind] at h ⊢
          cases hedw : exec env (f + 1) Call.edw s2 with
          | nofuel => rw [hedw] at h; simp [Res.pre, Res.isOkB] at h
          | fail e3 s3 evs3 => rw [hedw] at h; simp [Res.pre, Res.isOkB] at h
          | ok b3 s3 evs3 =>
            have hv3 : vrEvents evs3 = [] := by
              have h2 := exec_noVR env (f + 1) Call.edw s2 True.intro
              rw [hedw] at h2
              exact h2
            simp only [Res.pre, Res.events, vrEvents_append, hv1, hv2, hv3]
            rfl
      · rw [if_pos hp] at h ⊢
        rw [if_neg hp]
        cases h2 : exec env (f + 1)
            (Call.issueID nodeID preferredIDAtHeight pullGossipSource) s1 with
        | nofuel => rw [h2] at h; simp [Res.bind, Res.pre, Res.isOkB] at h
        | fail e2 s2 evs2 => rw [h2] at h; simp [Res.bind, Res.pre, Res.isOkB] at h
        | ok sw2 s2 evs2 =>
          rw [h2] at h
          have hv2 : vrEvents evs2 = [] := by
            have h3 := exec_noVR env (f + 1)
              (Call.issueID nodeID preferredIDAtHeight pullGossipSource) s1 True.intro
            rw [h2] at h3
            exact h3
          simp only [Res.bind] at h ⊢
          cases hr : exec env (f + 1)
              (Call.register (BJob.voter nodeID requestID
                [preferredID, preferredIDAtHeight]
                ((if sw1 = true then [preferredID] else []) ++
                  (if sw2 = true then [preferredIDAtHeight] else [])))) s2 with
          | nofuel => rw [hr] at h; simp [Res.bind, Res.pre, Res.isOkB] at h
          | fail e3 s3 evs3 => rw [hr] at h; simp [Res.bind, Res.pre, Res.isOkB] at h
          | ok b3 s3 evs3 =>
            rw [hr] at h
            have hv3 : vrEvents evs3 =
                [Event.voterRegistered nodeID requestID
                  [preferredID, preferredIDAtHeight]] := by
              rcases register_voter_vr env f nodeID requestID
                  [preferredID, preferredIDAtHeight]
                  ((if sw1 = true then [preferredID] else []) ++
                    (if sw2 = true then [preferredIDAtHeight] else [])) s2 with hreg | hreg
              · rw [hr] at hreg; exact absurd hreg (by simp)
              · rw [hr] at hreg; exact hreg
            simp only [Res.bind] at h ⊢
            cases hedw : exec env (f + 1) Call.edw s3 with
            | nofuel => rw [hedw] at h; simp [Res.pre, Res.isOkB] at h
            | fail e4 s4 evs4 => rw [hedw] at h; simp [Res.pre, Res.isOkB] at h
            | ok b4 s4 evs4 =>
              have hv4 : vrEvents evs4 = [] := by
                have h4 := exec_noVR env (f + 1) Call.edw s3 True.intro
                rw [hedw] at h4
                exact h4
              simp only [Res.pre, Res.events, vrEvents_append, hv1, hv2, hv3, hv4]
              rfl

/-- Witness for C5: a concrete chit with coinciding preferred ids yields a
single-element response-options list. -/
theorem chits_voter_response_options_witness :
    Res.isOkB (Chits envBug 50 (initState 0 0) 1 77 103 103 100) = true ∧
    vrEvents (Res.events (Chits envBug 50 (initState 0 0) 1 77 103 103 100)) =
      [Event.voterRegistered 1 77 (if 103 = 103 then [103] else [103, 103])] :=
  ⟨by decide,
    chits_voter_response_options envBug 50 (initState 0 0) 1 77 103 103 100 (by decide)⟩

theorem gpaFuelBound_pos (env : Env) (s : EngineState) (v : Nat) :
    1 ≤ gpaFuelBound env s v := by
  unfold gpaFuelBound
  split <;> omega

/-- The `getProcessingAncestor` walk, started at any vote and with any
last-useful height, reaches a fuel-independent result once the fuel meets
the height-derived bound, provided fetched blocks sit strictly above their
parents. -/
theorem gpaLoop_total (env : Env) (s : EngineState) (lu : Nat)
    (hmono : HeightMono env s) :
    ∀ n v, gpaFuelBound env s v ≤ n →
      ∃ r, ∀ fuel, gpaFuelBound env s v ≤ fuel →
        gpaLoop env s lu fuel v = some r := by
  intro n
  induction n with
  | zero =>
    intro v hv
    exact absurd (le_trans (gpaFuelBound_pos env s v) hv) (by omega)
  | succ n ih =>
    intro v hv
    by_cases hproc : env.consProcessing s.cons v = true
    · refine ⟨some v, ?_⟩
      intro fuel hfuel
      cases fuel with
      | zero => exact absurd (le_trans (gpaFuelBound_pos env s v) hfuel) (by omega)
      | succ f => simp [gpaLoop, hproc]
    · cases hgb : getBlock env s v with
      | none =>
        refine ⟨none, ?_⟩
        intro fuel hfuel
        cases fuel with
        | zero => exact absurd (le_trans (gpaFuelBound_pos env s v) hfuel) (by omega)
        | succ f => simp [gpaLoop, hproc, hgb]
      | some blk =>
        have hbound : gpaFuelBound env s v = blk.height + 2 := by
          unfold gpaFuelBound
          rw [hgb]
        by_cases hle : blk.height ≤ lu
        · refine ⟨none, ?_⟩
          intro fuel hfuel
          cases fuel with
          | zero => exact absurd (le_trans (gpaFuelBound_pos env s v) hfuel) (by omega)
          | succ f => simp [gpaLoop, hproc, hgb, hle]
        · have hparent2 : gpaFuelBound env s blk.parent ≤ blk.height + 1 := by
            cases hgb' : getBlock env s blk.parent with
            | none =>
              unfold gpaFuelBound
              rw [hgb']
              show (1 : Nat) ≤ blk.height + 1
              omega
            | some pblk =>
              have hlt := hmono v blk hgb pblk hgb'
              unfold gpaFuelBound
              rw [hgb']
              show pblk.height + 2 ≤ blk.height + 1
              omega
          have hparent : gpaFuelBound env s blk.parent ≤ n := by
            rw [hbound] at hv
            omega
          obtain ⟨r, hr⟩ := ih blk.parent hparent
          refine ⟨r, ?_⟩
          intro fuel hfuel
          rw [hbound] at hfuel
          cases fuel with
          | zero => omega
          | succ f =>
            have hf : gpaFuelBound env s blk.parent ≤ f := by omega
            simp only [gpaLoop, hproc, hgb, if_neg hproc]
            simp only [if_neg hle]
            exact hr f hf

/-- Claim C9: under the precondition that every block returned by
`getBlock` has height strictly greater than its parent's, the
`getProcessingAncestor` walk terminates: it has a fuel-independent result
as soon as the fuel reaches the bound derived from the bubbled vote's
height (the walk stops by the time it would pass last-accepted-height + 1,
each iteration moving to a parent of strictly smaller height). -/
theorem getProcessingAncestor_terminates (env : Env) (s : EngineState)
    (hmono : HeightMono env s) (initialVote : Nat) :
    ∃ r, ∀ fuel,
      gpaFuelBound env s
          (treeGetAncestor s.nonVerifieds (s.nonVerifieds.length + 1) initialVote) ≤
        fuel →
      getProcessingAncestor env s fuel initialVote = some r := by
  obtain ⟨r, hr⟩ := gpaLoop_total env s ((env.consLastAccepted s.cons).2 + 1) hmono
    (gpaFuelBound env s
      (treeGetAncestor s.nonVerifieds (s.nonVerifieds.length + 1) initialVote))
    (treeGetAncestor s.nonVerifieds (s.nonVerifieds.length + 1) initialVote) le_rfl
  exact ⟨r, fun fuel hfuel => hr fuel hfuel⟩

/-- Witness for C9: the walk terminates on the concrete two-block chain of
`envC9` started at block 5. -/
theorem getProcessingAncestor_terminates_witness :
    ∃ r, ∀ fuel,
      gpaFuelBound envC9 (initState 0 0)
          (treeGetAncestor (initState 0 0).nonVerifieds
            ((initState 0 0).nonVerifieds.length + 1) 5) ≤ fuel →
      getProcessingAncestor envC9 (initState 0 0) fuel 5 = some r := by
  refine getProcessingAncestor_terminates envC9 (initState 0 0) ?_ 5
  intro id blk hb pblk hpb
  by_cases h5 : id = 5
  · subst h5
    have hb' : some blk5 = some blk := hb
    cases hb'
    have hpb' : some blk4 = some pblk := hpb
    cases hpb'
    decide
  · by_cases h4 : id = 4
    · subst h4
      have hb' : some blk4 = some blk := hb
      cases hb'
      have hpb' : (none : Option Block) = some pblk := hpb
      exact Option.noConfusion hpb'
    · have hnone : getBlock envC9 (initState 0 0) id = none := by
        simp [getBlock, envC9, envBug, initState, plookup, h5, h4]
      rw [hnone] at hb
      exact Option.noConfusion hb

theorem plookup_eq_none {α β : Type} [DecidableEq α] :
    ∀ (l : List (α × β)) (k : α), k ∉ l.map Prod.fst → plookup l k = none := by
  intro l k h
  induction l with
  | nil => rfl
  | cons p rest ih =>
    obtain ⟨k0, v0⟩ := p
    simp only [List.map_cons, List.mem_cons] at h
    push_neg at h
    simp only [plookup]
    rw [if_neg (fun he => h.1 he.symm)]
    exact ih h.2

theorem plookup_perase {α β : Type} [DecidableEq α] :
    ∀ (l : List (α × β)) (k r : α),
      plookup (perase l k) r = if r = k then none else plookup l r := by
  intro l k r
  induction l with
  | nil => simp [perase, plookup]
  | cons p rest ih =>
    obtain ⟨k0, v0⟩ := p
    by_cases h0 : k0 = k
    · rw [show perase ((k0, v0) :: rest) k = perase rest k from by
        simp [perase, h0]]
      rw [ih]
      by_cases hr : r = k
      · simp [hr]
      · rw [if_neg hr, if_neg hr]
        simp only [plookup]
        rw [if_neg (fun he : k0 = r => hr (he.symm.trans h0))]
    · rw [show perase ((k0, v0) :: rest) k = (k0, v0) :: perase rest k from by
        simp [perase, h0]]
      simp only [plookup]
      by_cases h0r : k0 = r
      · rw [if_pos h0r, if_neg (fun hrk : r = k => h0 (h0r.trans hrk)), if_pos h0r]
      · rw [if_neg h0r, ih]
        by_cases hr : r = k
        · simp [hr]
        · simp only [if_neg hr, if_neg h0r]

theorem keys_perase_not_mem {α β : Type} [DecidableEq α] :
    ∀ (l : List (α × β)) (k : α), k ∉ (perase l k).map Prod.fst := by
  intro l k
  induction l with
  | nil => simp [perase]
  | cons p rest ih =>
    obtain ⟨k0, v0⟩ := p
    by_cases h0 : k0 = k
    · simp only [perase, if_pos h0]
      exact ih
    · simp only [perase, if_neg h0, List.map_cons, List.mem_cons]
      push_neg
      exact ⟨fun he => h0 he.symm, ih⟩

theorem perase_sublist {α β : Type} [DecidableEq α] :
    ∀ (l : List (α × β)) (k : α), (perase l k).Sublist l := by
  intro l k
  induction l with
  | nil => simp [perase]
  | cons p rest ih =>
    obtain ⟨k0, v0⟩ := p
    by_cases h0 : k0 = k
    · simp only [perase, if_pos h0]
      exact ih.trans (List.sublist_cons_self _ _)
    · simp only [perase, if_neg h0]
      exact ih.cons₂ _

theorem keys_pinsert_nodup {α β : Type} [DecidableEq α]
    (l : List (α × β)) (k : α) (v : β)
    (h : (l.map Prod.fst).Nodup) : ((pinsert l k v).map Prod.fst).Nodup := by
  simp only [pinsert, List.map_cons, List.nodup_cons]
  exact ⟨keys_perase_not_mem l k, (((perase_sublist l k).map Prod.fst).nodup h)⟩

theorem bimapDeleteValue_mem :
    ∀ (l : List ((Nat × Nat) × Nat)) (val : Nat) (req : Nat × Nat)
      (rest : List ((Nat × Nat) × Nat)),
      bimapDeleteValue l val = some (req, rest) → req ∈ l.map Prod.fst := by
  intro l val
  induction l with
  | nil => intro req rest h; exact Option.noConfusion h
  | cons p tail ih =>
    obtain ⟨k0, v0⟩ := p
    intro req rest h
    simp only [bimapDeleteValue] at h
    by_cases hv : v0 = val
    · rw [if_pos hv] at h
      injection h with h'
      injection h' with h1 h2
      simp only [List.map_cons, List.mem_cons]
      exact Or.inl h1.symm
    · rw [if_neg hv] at h
      cases htail : bimapDeleteValue tail val with
      | none => rw [htail] at h; exact Option.noConfusion h
      | some pr =>
        obtain ⟨req', rest'⟩ := pr
        rw [htail] at h
        injection h with h'
        injection h' with h1 h2
        simp only [List.map_cons, List.mem_cons]
        exact Or.inr (h1 ▸ ih req' rest' htail)

theorem bimapDeleteValue_lookup :
    ∀ (l : List ((Nat × Nat) × Nat)) (val : Nat) (req : Nat × Nat)
      (rest : List ((Nat × Nat) × Nat)),
      (l.map Prod.fst).Nodup →
      bimapDeleteValue l val = some (req, rest) →
      ∀ r, plookup rest r = if r = req then none else plookup l r := by
  intro l val
  induction l with
  | nil => intro req rest _ h; exact Option.noConfusion h
  | cons p tail ih =>
    obtain ⟨k0, v0⟩ := p
    intro req rest hnd h r
    simp only [List.map_cons, List.nodup_cons] at hnd
    simp only [bimapDeleteValue] at h
    by_cases hv : v0 = val
    · rw [if_pos hv] at h
      injection h with h'
      injection h' with h1 h2
      subst h1
      subst h2
      by_cases hr : r = k0
      · rw [if_pos hr, hr]
        exact plookup_eq_none tail k0 hnd.1
      · rw [if_neg hr]
        simp only [plookup]
        rw [if_neg (fun he : k0 = r => hr he.symm)]
    · rw [if_neg hv] at h
      cases htail : bimapDeleteValue tail val with
      | none => rw [htail] at h; exact Option.noConfusion h
      | some pr =>
        obtain ⟨req', rest'⟩ := pr
        rw [htail] at h
        injection h with h'
        injection h' with h1 h2
        subst h1
        subst h2
        have hmem := bimapDeleteValue_mem tail val req' rest' htail
        have hk0 : k0 ≠ req' := fun he => hnd.1 (he ▸ hmem)
        by_cases hr : r = req'
        · rw [if_pos hr]
          simp only [plookup]
          rw [if_neg (fun he : k0 = r => hk0 (he.trans hr))]
          rw [ih req' rest' hnd.2 htail r, if_pos hr]
        · rw [if_neg hr]
          simp only [plookup]
          by_cases h0r : k0 = r
          · rw [if_pos h0r, if_pos h0r]
          · rw [if_neg h0r, if_neg h0r, ih req' rest' hnd.2 htail r, if_neg hr]

theorem bimapDeleteValue_sublist :
    ∀ (l : List ((Nat × Nat) × Nat)) (val : Nat) (req : Nat × Nat)
      (rest : List ((Nat × Nat) × Nat)),
      bimapDeleteValue l val = some (req, rest) → rest.Sublist l := by
  intro l val
  induction l with
  | nil => intro req rest h; exact Option.noConfusion h
  | cons p tail ih =>
    obtain ⟨k0, v0⟩ := p
    intro req rest h
    simp only [bimapDeleteValue] at h
    by_cases hv : v0 = val
    · rw [if_pos hv] at h
      injection h with h'
      injection h' with h1 h2
      subst h2
      exact List.sublist_cons_self _ _
    · rw [if_neg hv] at h
      cases htail : bimapDeleteValue tail val with
      | none => rw [htail] at h; exact Option.noConfusion h
      | some pr =>
        obtain ⟨req', rest'⟩ := pr
        rw [htail] at h
        injection h with h'
        injection h' with h1 h2
        subst h2
        exact (ih req' rest' htail).cons₂ _

theorem bimapDeleteKey_lookup :
    ∀ (l : List ((Nat × Nat) × Nat)) (key : Nat × Nat) (v : Nat)
      (rest : List ((Nat × Nat) × Nat)),
      (l.map Prod.fst).Nodup →
      bimapDeleteKey l key = some (v, rest) →
      ∀ r, plookup rest r = if r = key then none else plookup l r := by
  intro l key
  induction l with
  | nil => intro v rest _ h; exact Option.noConfusion h
  | cons p tail ih =>
    obtain ⟨k0, v0⟩ := p
    intro v rest hnd h r
    simp only [List.map_cons, List.nodup_cons] at hnd
    simp only [bimapDeleteKey] at h
    by_cases hk : k0 = key
    · rw [if_pos hk] at h
      injection h with h'
      injection h' with h1 h2
      subst h2
      by_cases hr : r = key
      · rw [if_pos hr, hr]
        exact plookup_eq_none tail key (hk ▸ hnd.1)
      · rw [if_neg hr]
        simp only [plookup]
        rw [if_neg (fun he : k0 = r => hr (he.symm.trans hk))]
    · rw [if_neg hk] at h
      cases htail : bimapDeleteKey tail key with
      | none => rw [htail] at h; exact Option.noConfusion h
      | some pr =>
        obtain ⟨v', rest'⟩ := pr
        rw [htail] at h
        injection h with h'
        injection h' with h1 h2
        subst h2
        by_cases hr : r = key
        · rw [if_pos hr]
          simp only [plookup]
          rw [if_neg (fun he : k0 = r => hk (he.trans hr))]
          rw [ih v' rest' hnd.2 htail r, if_pos hr]
        · rw [if_neg hr]
          simp only [plookup]
          by_cases h0r : k0 = r
          · rw [if_pos h0r, if_pos h0r]
          · rw [if_neg h0r, if_neg h0r, ih v' rest' hnd.2 htail r, if_neg hr]

theorem bimapDeleteKey_sublist :
    ∀ (l : List ((Nat × Nat) × Nat)) (key : Nat × Nat) (v : Nat)
      (rest : List ((Nat × Nat) × Nat)),
      bimapDeleteKey l key = some (v, rest) → rest.Sublist l := by
  intro l key
  induction l with
  | nil => intro v rest h; exact Option.noConfusion h
  | cons p tail ih =>
    obtain ⟨k0, v0⟩ := p
    intro v rest h
    simp only [bimapDeleteKey] at h
    by_cases hk : k0 = key
    · rw [if_pos hk] at h
      injection h with h'
      injection h' with h1 h2
      subst h2
      exact List.sublist_cons_self _ _
    · rw [if_neg hk] at h
      cases htail : bimapDeleteKey tail key with
      | none => rw [htail] at h; exact Option.noConfusion h
      | some pr =>
        obtain ⟨v', rest'⟩ := pr
        rw [htail] at h
        injection h with h'
        injection h' with h1 h2
        subst h2
        exact (ih v' rest' htail).cons₂ _

theorem bimapEraseValue_of_not_hasValue :
    ∀ (l : List ((Nat × Nat) × Nat)) (val : Nat),
      bimapHasValue l val = false → bimapEraseValue l val = l := by
  intro l val
  induction l with
  | nil => intro _; rfl
  | cons p tail ih =>
    obtain ⟨k0, v0⟩ := p
    intro h
    simp only [bimapHasValue, List.any_cons, Bool.or_eq_false_iff] at h
    have hv : ¬ v0 = val := by simpa using h.1
    simp only [bimapEraseValue, List.filter_cons]
    rw [if_pos (by simpa using hv)]
    exact congrArg (List.cons (k0, v0)) (ih h.2)

theorem ReqInv_of_fields (s s' : EngineState) (h : ReqInv s)
    (h1 : s'.blkReqs = s.blkReqs)
    (h2 : s'.blkReqSourceMetric = s.blkReqSourceMetric) : ReqInv s' := by
  obtain ⟨hnd, hsync⟩ := h
  refine ⟨?_, ?_⟩
  · show ((s'.blkReqs.map Prod.fst)).Nodup
    rw [h1]
    exact hnd
  · intro r
    show (plookup s'.blkReqSourceMetric r).isSome = (plookup s'.blkReqs r).isSome
    rw [h1, h2]
    exact hsync r

theorem ReqInv_sendRequest (s : EngineState) (n b t : Nat) (h : ReqInv s) :
    ReqInv (sendRequest s n b t).1 := by
  by_cases hv : bimapHasValue s.blkReqs b = true
  · simp only [sendRequest, if_pos hv]
    exact h
  · simp only [sendRequest, if_neg hv]
    obtain ⟨hnd, hsync⟩ := h
    have heq : bimapEraseValue s.blkReqs b = s.blkReqs :=
      bimapEraseValue_of_not_hasValue s.blkReqs b (by simpa using hv)
    refine ⟨?_, ?_⟩
    · show ((bimapPut s.blkReqs (n, incReqID s.requestID) b).map Prod.fst).Nodup
      unfold bimapPut
      rw [heq]
      simp only [List.map_cons, List.nodup_cons]
      exact ⟨keys_perase_not_mem _ _, ((perase_sublist _ _).map Prod.fst).nodup hnd⟩
    · intro r
      show (plookup (pinsert s.blkReqSourceMetric (n, incReqID s.requestID) t) r).isSome =
        (plookup (bimapPut s.blkReqs (n, incReqID s.requestID) b) r).isSome
      unfold pinsert bimapPut
      rw [heq]
      simp only [plookup]
      by_cases hkr : (n, incReqID s.requestID) = r
      · rw [if_pos hkr, if_pos hkr]
        rfl
      · rw [if_neg hkr, if_neg hkr, plookup_perase, plookup_perase]
        by_cases hrk : r = (n, incReqID s.requestID)
        · exact absurd hrk.symm hkr
        · rw [if_neg hrk, if_neg hrk]
          exact hsync r

theorem ReqInv_removeReqByValue (s : EngineState) (b : Nat) (h : ReqInv s) :
    ReqInv (removeReqByValue s b) := by
  obtain ⟨hnd, hsync⟩ := h
  unfold removeReqByValue
  cases hdel : bimapDeleteValue s.blkReqs b with
  | none => exact ⟨hnd, hsync⟩
  | some pr =>
    obtain ⟨req, rest⟩ := pr
    refine ⟨?_, ?_⟩
    · show (rest.map Prod.fst).Nodup
      exact ((bimapDeleteValue_sublist s.blkReqs b req rest hdel).map Prod.fst).nodup hnd
    · intro r
      show (plookup (perase s.blkReqSourceMetric req) r).isSome = (plookup rest r).isSome
      rw [plookup_perase, bimapDeleteValue_lookup s.blkReqs b req rest hnd hdel r]
      by_cases hr : r = req
      · simp [hr]
      · rw [if_neg hr, if_neg hr]
        exact hsync r

theorem ReqInv_deleteKey (s : EngineState) (req : Nat × Nat) (v : Nat)
    (rest : List ((Nat × Nat) × Nat)) (h : ReqInv s)
    (hdel : bimapDeleteKey s.blkReqs req = some (v, rest)) :
    ReqInv { s with
        blkReqs := rest
        blkReqSourceMetric := perase s.blkReqSourceMetric req } := by
  obtain ⟨hnd, hsync⟩ := h
  refine ⟨?_, ?_⟩
  · show (rest.map Prod.fst).Nodup
    exact ((bimapDeleteKey_sublist s.blkReqs req v rest hdel).map Prod.fst).nodup hnd
  · intro r
    show (plookup (perase s.blkReqSourceMetric req) r).isSome = (plookup rest r).isSome
    rw [plookup_perase, bimapDeleteKey_lookup s.blkReqs req v rest hnd hdel r]
    by_cases hr : r = req
    · simp [hr]
    · rw [if_neg hr, if_neg hr]
      exact hsync r

theorem sendQuery_blkReqs (env : Env) (s : EngineState) (b : Nat)
    (bb : List Nat) (p : Bool) : (sendQuery env s b bb p).1.blkReqs = s.blkReqs := by
  simp only [sendQuery]
  repeat' split
  all_goals rfl

theorem sendQuery_metric (env : Env) (s : EngineState) (b : Nat)
    (bb : List Nat) (p : Bool) :
    (sendQuery env s b bb p).1.blkReqSourceMetric = s.blkReqSourceMetric := by
  simp only [sendQuery]
  repeat' split
  all_goals rfl

theorem ReqInv_sendQuery (env : Env) (s : EngineState) (b : Nat)
    (bb : List Nat) (p : Bool) (h : ReqInv s) : ReqInv (sendQuery env s b bb p).1 :=
  ReqInv_of_fields s _ h (sendQuery_blkReqs env s b bb p)
    (sendQuery_metric env s b bb p)

theorem ReqInv_repolls (env : Env) (pid : Nat) :
    ∀ n s, ReqInv s → ReqInv (repolls env pid n s).1 := by
  intro n
  induction n with
  | zero => intro s h; exact h
  | succ k ih =>
    intro s h
    simp only [repolls]
    exact ih _ (ReqInv_sendQuery env s pid [] false h)

theorem ReqInv_latchErr (s : EngineState) (e : Option Nat) (h : ReqInv s) :
    ReqInv (latchErr s e) := by
  unfold latchErr
  split
  · exact ReqInv_of_fields s _ h rfl rfl
  · exact h

theorem ReqInv_addToNonVerifieds (env : Env) (s : EngineState) (blk : Block)
    (h : ReqInv s) : ReqInv (addToNonVerifieds env s blk) := by
  simp only [addToNonVerifieds]
  repeat' split
  all_goals exact h

theorem ResInv_pre (evs : List Event) (r : Res) :
    ResInv (Res.pre evs r) ↔ ResInv r := by
  cases r <;> exact Iff.rfl

theorem ResInv_bind (r : Res) (f : Bool → EngineState → Res) (h1 : ResInv r)
    (h2 : ∀ b s, ReqInv s → ResInv (f b s)) : ResInv (Res.bind r f) := by
  cases r with
  | ok b s evs => exact (ResInv_pre evs (f b s)).mpr (h2 b s h1)
  | fail e s evs => exact h1
  | nofuel => trivial

/-- The recursive engine core preserves the request/metric synchronisation
invariant. -/
theorem exec_reqInv (env : Env) :
    ∀ fuel call s, ReqInv s → ResInv (exec env fuel call s) := by
  intro fuel
  induction fuel with
  | zero => intro call s _; trivial
  | succ f ih =>
    intro call s hs
    cases call with
    | issueID nodeID blkID tag =>
      simp only [exec]
      split
      · exact ReqInv_sendRequest s nodeID blkID tag hs
      · exact ih _ s hs
    | issueChain nodeID blk tag =>
      simp only [exec]
      have hs1 : ReqInv (removeReqByValue s blk.id) :=
        ReqInv_removeReqByValue s blk.id hs
      split
      · refine ResInv_bind _ _ (ih _ _ hs1) ?_
        intro b s' h'
        split
        · exact h'
        · exact h'
      · split
        · exact hs1
        · split
          · exact hs1
          · split
            · exact ResInv_bind _ _ (ih _ _ hs1) (fun _ s' h' => h')
            · refine ResInv_bind _ _ (ih _ _ (ReqInv_of_fields _ _ hs1 rfl rfl)) ?_
              intro b s' h'
              split
              · exact ih _ s' h'
              · exact ReqInv_sendRequest s' nodeID blk.id tag h'
    | deliver nodeID blk push tag =>
      simp only [exec]
      exact ih _ s hs
    | deliverLoop nodeID push tag blksToIssue blksToFulfill blksToAbandon =>
      cases blksToIssue with
      | nil =>
        simp only [exec]
        split
        · exact hs
        · refine (ResInv_pre _ _).mpr ?_
          refine ResInv_bind _ _ (ih _ _ hs) ?_
          intro b s' h'
          refine ResInv_bind _ _ (ih _ _ h') ?_
          intro b' s'' h''
          split
          · exact h''
          · exact h''
      | cons blk rest =>
        simp only [exec]
        split
        · exact ih _ s hs
        · split
          · exact ih _ s hs
          · split
            · exact ih _ _ (ReqInv_addToNonVerifieds env s blk hs)
            · split
              · exact ReqInv_of_fields _ _ hs rfl rfl
              · split
                · exact (ResInv_pre _ _).mpr (ih _ _ (ReqInv_of_fields _ _ hs rfl rfl))
                · exact ReqInv_of_fields _ _ hs rfl rfl
                · exact (ResInv_pre _ _).mpr (ih _ _ (ReqInv_of_fields _ _ hs rfl rfl))
    | fulfillPhase push blksToFulfill =>
      cases blksToFulfill with
      | nil => exact hs
      | cons blk rest =>
        simp only [exec]
        refine (ResInv_pre _ _).mpr ?_
        have hr1 : ReqInv (if env.consIsPreferred s.cons blk.id = true then
            sendQuery env s blk.id blk.bytes push else (s, [])).1 := by
          split
          · exact ReqInv_sendQuery env s blk.id blk.bytes push hs
          · exact hs
        refine ResInv_bind _ _ (ih _ _ ?_) ?_
        · exact ReqInv_removeReqByValue _ blk.id (ReqInv_of_fields _ _ hr1 rfl rfl)
        · intro b s' h'
          exact ih _ s' h'
    | abandonPhase blksToAbandon =>
      cases blksToAbandon with
      | nil => exact hs
      | cons blkID rest =>
        simp only [exec]
        refine ResInv_bind _ _ (ih _ _ ?_) ?_
        · exact ReqInv_removeReqByValue _ blkID (ReqInv_of_fields _ _ hs rfl rfl)
        · intro b s' h'
          exact ih _ s' h'
    | resolve ab blkID =>
      simp only [exec]
      exact ih _ _ (ReqInv_of_fields _ _ hs rfl rfl)
    | runJobs jobs =>
      cases jobs with
      | nil => exact hs
      | cons j rest =>
        simp only [exec]
        exact ResInv_bind _ _ (ih _ _ hs) (fun _ s' h' => ih _ s' h')
    | runJob job =>
      cases job with
      | issuer nodeID blk push tag deps abandoned =>
        simp only [exec]
        split
        · exact ih _ _ (ReqInv_of_fields _ _ hs rfl rfl)
        · split
          · exact hs
          · split
            · next b s' evs heq =>
                have h2 := ih (.deliver nodeID blk push tag) s hs
                rw [heq] at h2
                exact h2
            · next e s' evs heq =>
                have h2 := ih (.deliver nodeID blk push tag) s hs
                rw [heq] at h2
                exact ReqInv_latchErr s' (some e) h2
            · trivial
      | voter vdr rid responseOptions deps =>
        simp only [exec]
        split
        · exact hs
        · split
          · trivial
          · exact ReqInv_of_fields _ _ hs rfl rfl
    | register job =>
      cases job with
      | issuer nodeID blk push tag deps abandoned =>
        simp only [exec]
        split
        · exact ih _ s hs
        · exact ReqInv_of_fields _ _ hs rfl rfl
      | voter vdr rid responseOptions deps =>
        simp only [exec]
        split
        · exact (ResInv_pre _ _).mpr (ih _ s hs)
        · exact ReqInv_of_fields _ _ hs rfl rfl
    | buildBlock =>
      simp only [exec]
      split
      · exact ReqInv_of_fields _ _ hs rfl rfl
      · split
        · exact ReqInv_of_fields _ _ hs rfl rfl
        · split
          · exact ReqInv_of_fields _ _ hs rfl rfl
          · exact ih _ _ (ReqInv_removeReqByValue _ _ (ReqInv_of_fields _ _ hs rfl rfl))
    | buildLoop =>
      simp only [exec]
      split
      · refine ResInv_bind _ _ (ih _ _ ?_) ?_
        · exact ReqInv_of_fields _ _ hs rfl rfl
        · intro b s' h'
          exact ih _ s' h'
      · exact hs
    | edw =>
      simp only [exec]
      split
      · exact hs
      · refine ResInv_bind _ _ (ih _ _ hs) ?_
        intro b s1 h1
        by_cases hnp : env.consNumProcessing s1.cons > 0
        · simp only [if_pos hnp]
          rcases herr : (repolls env (env.consPreference s1.cons)
              (env.concurrentRepolls - env.pollsLen s1.pollSt) s1).1.errs with _ | e <;>
            simp only [herr]
          · exact ReqInv_repolls env _ _ _ h1
          · exact ReqInv_repolls env _ _ _ h1
        · simp only [if_neg hnp]
          split
          · exact h1
          · exact h1

theorem ReqInv_Put (env : Env) (fuel : Nat) (s : EngineState)
    (nodeID requestID : Nat) (blkBytes : List Nat) (h : ReqInv s) :
    ResInv (Put env fuel s nodeID requestID blkBytes) := by
  simp only [Put]
  split
  · exact ReqInv_of_fields _ _ h rfl rfl
  · next expectedBlkID blkReqs' heq =>
    have hs1 : ReqInv { s with
        blkReqs := blkReqs'
        blkReqSourceMetric := perase s.blkReqSourceMetric (nodeID, requestID) } :=
      ReqInv_deleteKey s (nodeID, requestID) expectedBlkID blkReqs' h heq
    split
    · refine ResInv_bind _ _ (exec_reqInv env fuel _ _ ?_) ?_
      · exact ReqInv_of_fields _ _ hs1 rfl rfl
      · intro b s' h'
        exact exec_reqInv env fuel _ s' h'
    · split
      · refine ResInv_bind _ _ (exec_reqInv env fuel _ _ ?_) ?_
        · exact ReqInv_of_fields _ _ hs1 rfl rfl
        · intro b s' h'
          exact exec_reqInv env fuel _ s' h'
      · refine ResInv_bind _ _ (exec_reqInv env fuel _ _ ?_) ?_
        · split
          · exact hs1
          · exact ReqInv_of_fields _ _ hs1 rfl rfl
        · intro b s' h'
          exact exec_reqInv env fuel _ s' h'

theorem ReqInv_GetFailed (env : Env) (fuel : Nat) (s : EngineState)
    (nodeID requestID : Nat) (h : ReqInv s) :
    ResInv (GetFailed env fuel s nodeID requestID) := by
  simp only [GetFailed]
  split
  · exact h
  · next blkID blkReqs' heq =>
    refine ResInv_bind _ _ (exec_reqInv env fuel _ _ ?_) ?_
    · exact ReqInv_deleteKey s (nodeID, requestID) blkID blkReqs' h heq
    · intro b s' h'
      exact exec_reqInv env fuel _ s' h'

theorem ReqInv_PullQuery (env : Env) (fuel : Nat) (s : EngineState)
    (nodeID requestID blkID requestedHeight : Nat) (h : ReqInv s) :
    ResInv (PullQuery env fuel s nodeID requestID blkID requestedHeight) := by
  simp only [PullQuery]
  exact (ResInv_pre _ _).mpr (ResInv_bind _ _ (exec_reqInv env fuel _ s h)
    (fun _ s' h' => exec_reqInv env fuel _ s' h'))

theorem ReqInv_PushQuery (env : Env) (fuel : Nat) (s : EngineState)
    (nodeID requestID : Nat) (blkBytes : List Nat) (requestedHeight : Nat)
    (h : ReqInv s) :
    ResInv (PushQuery env fuel s nodeID requestID blkBytes requestedHeight) := by
  simp only [PushQuery]
  refine (ResInv_pre _ _).mpr ?_
  split
  · exact h
  · refine ResInv_bind _ _ (exec_reqInv env fuel _ _ ?_) ?_
    · split
      · exact h
      · exact ReqInv_of_fields _ _ h rfl rfl
    · intro b s' h'
      exact exec_reqInv env fuel _ s' h'

theorem ReqInv_Chits (env : Env) (fuel : Nat) (s : EngineState)
    (nodeID requestID preferredID preferredIDAtHeight acceptedID : Nat)
    (h : ReqInv s) :
    ResInv (Chits env fuel s nodeID requestID preferredID preferredIDAtHeight
      acceptedID) := by
  simp only [Chits]
  refine ResInv_bind _ _ (exec_reqInv env fuel _ _ (ReqInv_of_fields _ _ h rfl rfl)) ?_
  intro b s1 h1
  split
  · refine ResInv_bind _ _ (exec_reqInv env fuel _ s1 h1) ?_
    intro b2 s2 h2
    refine ResInv_bind _ _ (exec_reqInv env fuel _ s2 h2) ?_
    intro b3 s3 h3
    exact exec_reqInv env fuel _ s3 h3
  · refine ResInv_bind _ _ (exec_reqInv env fuel _ s1 h1) ?_
    intro b2 s2 h2
    exact exec_reqInv env fuel _ s2 h2

theorem ReqInv_QueryFailed (env : Env) (fuel : Nat) (s : EngineState)
    (nodeID requestID : Nat) (h : ReqInv s) :
    ResInv (QueryFailed env fuel s nodeID requestID) := by
  simp only [QueryFailed]
  split
  · exact ReqInv_Chits env fuel s nodeID requestID _ _ _ h
  · refine ResInv_bind _ _ (exec_reqInv env fuel _ s h) ?_
    intro b s' h'
    exact exec_reqInv env fuel _ s' h'

theorem ReqInv_Notify (env : Env) (fuel : Nat) (s : EngineState)
    (msg : NotifyMsg) (h : ReqInv s) : ResInv (Notify env fuel s msg) := by
  cases msg with
  | pendingTxs =>
    simp only [Notify]
    exact exec_reqInv env fuel _ _ (ReqInv_of_fields _ _ h rfl rfl)
  | stateSyncDone =>
    simp only [Notify]
    exact ReqInv_of_fields _ _ h rfl rfl
  | other =>
    simp only [Notify]
    exact h

theorem ReqInv_Gossip (env : Env) (fuel : Nat) (s : EngineState) (h : ReqInv s) :
    ResInv (Gossip env fuel s) := by
  simp only [Gossip]
  split
  · exact exec_reqInv env fuel _ s h
  · split
    · exact h
    · split
      · exact h
      · exact ReqInv_of_fields _ _ h rfl rfl

theorem ReqInv_deliverAll (env : Env) (fuel nodeID : Nat) :
    ∀ blks s, ReqInv s → ResInv (deliverAll env fuel nodeID blks s) := by
  intro blks
  induction blks with
  | nil => intro s h; exact h
  | cons b rest ihb =>
    intro s h
    simp only [deliverAll]
    exact ResInv_bind _ _ (exec_reqInv env fuel _ s h) (fun _ s' h' => ihb s' h')

theorem ReqInv_Start (env : Env) (fuel : Nat) (s : EngineState)
    (startReqID : Nat) (h : ReqInv s) : ResInv (Start env fuel s startReqID) := by
  simp only [Start]
  split
  · exact ReqInv_of_fields _ _ h rfl rfl
  · split
    · exact ReqInv_of_fields _ _ h rfl rfl
    · split
      · exact ReqInv_of_fields _ _ h rfl rfl
      · refine ResInv_bind _ _ ?_ ?_
        · split
          · split
            · exact ReqInv_of_fields _ _ h rfl rfl
            · exact ReqInv_of_fields _ _ h rfl rfl
          · exact ReqInv_of_fields _ _ h rfl rfl
          · exact ReqInv_deliverAll env fuel env.selfNodeID _ _
              (ReqInv_of_fields _ _ h rfl rfl)
        · intro b s' h'
          refine (ResInv_pre _ _).mpr ?_
          split
          · exact h'
          · exact exec_reqInv env fuel _ s' h'

theorem ReqInv_runHandler (env : Env) (fuel : Nat) (c : HCall) (s : EngineState)
    (h : ReqInv s) : ResInv (runHandler env fuel c s) := by
  cases c with
  | put nodeID requestID blkBytes =>
    exact ReqInv_Put env fuel s nodeID requestID blkBytes h
  | getFailed nodeID requestID => exact ReqInv_GetFailed env fuel s nodeID requestID h
  | pullQuery nodeID requestID blkID requestedHeight =>
    exact ReqInv_PullQuery env fuel s nodeID requestID blkID requestedHeight h
  | pushQuery nodeID requestID blkBytes requestedHeight =>
    exact ReqInv_PushQuery env fuel s nodeID requestID blkBytes requestedHeight h
  | chits nodeID requestID preferredID preferredIDAtHeight acceptedID =>
    exact ReqInv_Chits env fuel s nodeID requestID preferredID preferredIDAtHeight
      acceptedID h
  | queryFailed nodeID requestID =>
    exact ReqInv_QueryFailed env fuel s nodeID requestID h
  | notify msg => exact ReqInv_Notify env fuel s msg h
  | gossip => exact ReqInv_Gossip env fuel s h
  | start startReqID => exact ReqInv_Start env fuel s startReqID h

theorem runSeq_reqInv (env : Env) :
    ∀ seq s, ReqInv s → ∀ sF, runSeq env seq s = some sF → ReqInv sF := by
  intro seq
  induction seq with
  | nil =>
    intro s h sF hrun
    simp only [runSeq] at hrun
    exact (Option.some.inj hrun) ▸ h
  | cons p rest ihs =>
    obtain ⟨fuel, c⟩ := p
    intro s h sF hrun
    simp only [runSeq] at hrun
    cases hstep : stepState (runHandler env fuel c s) with
    | none => rw [hstep] at hrun; exact Option.noConfusion hrun
    | some s' =>
      rw [hstep] at hrun
      have hInv' : ReqInv s' := by
        have hres := ReqInv_runHandler env fuel c s h
        cases hr : runHandler env fuel c s with
        | ok b st evs =>
          rw [hr] at hres hstep
          simp only [stepState] at hstep
          exact (Option.some.inj hstep) ▸ hres
        | fail e st evs =>
          rw [hr] at hres hstep
          simp only [stepState] at hstep
          exact (Option.some.inj hstep) ▸ hres
        | nofuel =>
          rw [hr] at hstep
          exact Option.noConfusion hstep
      exact ihs s' hInv' sF hrun

theorem ReqInv_initState (c p : Nat) : ReqInv (initState c p) := by
  constructor
  · exact List.nodup_nil
  · intro r
    rfl

/-- Claim C8: along every sequence of handler invocations from the fresh
engine, a `(peer, req-id)` key carries a metric tag in
`blkReqSourceMetric` iff that request is outstanding in `blkReqs` (every
removal from the request table also removes its metric tag). -/
theorem request_metric_tag_sync (env : Env) (seq : List (Nat × HCall))
    (c p : Nat) (sF : EngineState)
    (h : runSeq env seq (initState c p) = some sF) : ReqSync sF :=
  (runSeq_reqInv env seq (initState c p) (ReqInv_initState c p) sF h).2

/-- Witness for C8: the synchronisation holds after the concrete
three-handler backfill sequence. -/
theorem request_metric_tag_sync_witness :
    runSeq envBug traceBug (initState 0 0) = some stateAfterPut ∧
    ReqSync stateAfterPut :=
  ⟨rfl, request_metric_tag_sync envBug traceBug 0 0 stateAfterPut rfl⟩

/-- Claim C3 (amended): `Start` with last-accepted an Oracle whose options
are `[L, R]` delivers `L` then `R` in that order (their `Consensus.Add`
calls occur in that order), calls `VM.SetPreference` once per delivered
option — twice in total, the final call with the consensus preference
after both adds — and sends exactly one pull query, for the option
preferred at the end of its delivery, when sampling, height arithmetic
and poll registration succeed and no repolls are pending. -/
theorem start_oracle_amended (env : Env) (fuel : Nat) (cInit p0 : Nat)
    (startReqID oID cons0 cons1 cons2 p1 : Nat) (O L R : Block) (vs : List Nat)
    (hLA : env.vmLastAccepted = some oID)
    (hGB : env.vmGetBlock oID = some O)
    (hInit : env.consInitialize oID O.height O.timestamp = some cons0)
    (hOpt : O.options = ORes.opts [L, R])
    (hLAc0 : env.consLastAccepted cons0 = (oID, O.height))
    (hLAc1 : env.consLastAccepted cons1 = (oID, O.height))
    (hLpar : L.parent = oID) (hRpar : R.parent = oID)
    (hLh : L.height = O.height + 1) (hRh : R.height = O.height + 1)
    (hLver : L.verifyOk = true) (hRver : R.verifyOk = true)
    (hLopt : L.options = ORes.notOracle) (hRopt : R.options = ORes.notOracle)
    (hProcL : env.consProcessing cons0 L.id = false)
    (hProcR : env.consProcessing cons1 R.id = false)
    (hAdd1 : env.consAdd cons0 L = some cons1)
    (hAdd2 : env.consAdd cons1 R = some cons2)
    (hSP1 : env.vmSetPreferenceErr (env.consPreference cons1) = none)
    (hSP2 : env.vmSetPreferenceErr (env.consPreference cons2) = none)
    (hPref1 : env.consIsPreferred cons1 L.id = true)
    (hPref2 : env.consIsPreferred cons2 R.id = false)
    (hSample : env.valSample = some vs)
    (hOv : O.height + 1 < 18446744073709551616)
    (hPolls : env.pollsAdd p0 (incReqID startReqID) vs = some p1)
    (hSS : env.vmSetStateErr = none)
    (hRep : env.concurrentRepolls ≤ env.pollsLen p1) :
    Res.events (Start env (fuel + 1 + 1 + 1 + 1 + 1 + 1) (initState cInit p0)
        startReqID) =
      [Event.consAddCall L.id,
        Event.setPreference (env.consPreference cons1),
        Event.sendPullQuery vs (incReqID startReqID) L.id (O.height + 1),
        Event.consAddCall R.id,
        Event.setPreference (env.consPreference cons2),
        Event.setVMState normalOp] ∧
    Res.isOkB (Start env (fuel + 1 + 1 + 1 + 1 + 1 + 1) (initState cInit p0)
        startReqID) = true := by
  have hdecL : isBlockDecided env cons0 L = false := by
    simp [isBlockDecided, hLAc0, hLh, hLpar]
  have hdropL : shouldBlockBeDropped env cons0 L = false := by
    simp [shouldBlockBeDropped, hProcL, hdecL]
  have hchildL : canBlockHaveChildIssued env cons0 L.parent = true := by
    simp [canBlockHaveChildIssued, hLpar, hLAc0]
  have hdecR : isBlockDecided env cons1 R = false := by
    simp [isBlockDecided, hLAc1, hRh, hRpar]
  have hdropR : shouldBlockBeDropped env cons1 R = false := by
    simp [shouldBlockBeDropped, hProcR, hdecR]
  have hchildR : canBlockHaveChildIssued env cons1 R.parent = true := by
    simp [canBlockHaveChildIssued, hRpar, hLAc1]
  have hadd : add64 O.height 1 = some (O.height + 1) := by
    simp [add64, hOv]
  have hsub : env.concurrentRepolls - env.pollsLen p1 = 0 :=
    Nat.sub_eq_zero_of_le hRep
  constructor <;>
    simp [Start, initState, getBlock, plookup, hLA, hGB, hInit, hOpt,
      deliverAll, exec, hdropL, hchildL, hLver, hAdd1, hLopt, hSP1, hPref1,
      sendQuery, hSample, hLAc0, hLAc1, hadd, hPolls, removeReqByValue,
      bimapDeleteValue, perase, Res.bind, Res.pre, Res.events, Res.isOkB,
      hdropR, hchildR, hRver, hAdd2, hRopt, hSP2, hPref2, hSS, hsub, repolls]

/-- Witness for the amended C3: the oracle-bootstrap scenario instantiates
every hypothesis. -/
theorem start_oracle_amended_witness :
    Res.events (Start envC3 (44 + 1 + 1 + 1 + 1 + 1 + 1) (initState 0 0) 0) =
      [Event.consAddCall blkL.id,
        Event.setPreference (envC3.consPreference 1),
        Event.sendPullQuery [7] (incReqID 0) blkL.id (blkO.height + 1),
        Event.consAddCall blkR.id,
        Event.setPreference (envC3.consPreference 2),
        Event.setVMState normalOp] ∧
    Res.isOkB (Start envC3 (44 + 1 + 1 + 1 + 1 + 1 + 1) (initState 0 0) 0) = true :=
  start_oracle_amended envC3 44 0 0 0 200 0 1 2 1 blkO blkL blkR [7]
    rfl rfl rfl rfl rfl rfl rfl rfl rfl rfl rfl rfl rfl rfl rfl rfl rfl rfl
    rfl rfl rfl rfl rfl (by decide) rfl rfl (by decide)

end SnowmanEngine
